import Mathlib

/-!
# ptool: the Transmission RPC call layer and the date-time helpers

A shallow embedding of `transmissionrpc/request.go` (`Client.rpcCall`,
`Client.request`, the session-id accessors, `HTTPStatusCode`) and of
`util/datetime.go` (`ExtractTime`, `FormatDuration`, `ParseTime`,
`ParseTimeWithNow`), followed by the theorems that settle the specification's
claims about them.

Conventions of the embedding.

* Go `error` values are the inductive `GoError`; `nil` is `Option.none`.
* The parts of the Go standard library the code calls (`net/http`,
  `encoding/json`, `math/rand`) are parameters: the structure `Env` for pure
  library functions, the field `Client.httpC` for the HTTP peer, `Client.rnd`
  for the random source.
* The mutable world of one call (session token, random source position, peer
  state, caller's result slot, standard error, the exchanges made so far) is
  the structure `State`, passed explicitly.
* The encoder goroutine is joined (`mg.Wait()`) before any of its results is
  read, so the model runs it sequentially.
-/

namespace Ptool

/-! ## Go values -/

/-- A Go `[]byte`. -/
abbrev Bytes := List UInt8

/-- The table `http.StatusText` of `net/http`. -/
def StatusText (code : Int) : String :=
  if code = 100 then "Continue"
  else if code = 101 then "Switching Protocols"
  else if code = 102 then "Processing"
  else if code = 103 then "Early Hints"
  else if code = 200 then "OK"
  else if code = 201 then "Created"
  else if code = 202 then "Accepted"
  else if code = 203 then "Non-Authoritative Information"
  else if code = 204 then "No Content"
  else if code = 205 then "Reset Content"
  else if code = 206 then "Partial Content"
  else if code = 207 then "Multi-Status"
  else if code = 208 then "Already Reported"
  else if code = 226 then "IM Used"
  else if code = 300 then "Multiple Choices"
  else if code = 301 then "Moved Permanently"
  else if code = 302 then "Found"
  else if code = 303 then "See Other"
  else if code = 304 then "Not Modified"
  else if code = 305 then "Use Proxy"
  else if code = 307 then "Temporary Redirect"
  else if code = 308 then "Permanent Redirect"
  else if code = 400 then "Bad Request"
  else if code = 401 then "Unauthorized"
  else if code = 402 then "Payment Required"
  else if code = 403 then "Forbidden"
  else if code = 404 then "Not Found"
  else if code = 405 then "Method Not Allowed"
  else if code = 406 then "Not Acceptable"
  else if code = 407 then "Proxy Authentication Required"
  else if code = 408 then "Request Timeout"
  else if code = 409 then "Conflict"
  else if code = 410 then "Gone"
  else if code = 411 then "Length Required"
  else if code = 412 then "Precondition Failed"
  else if code = 413 then "Request Entity Too Large"
  else if code = 414 then "Request URI Too Long"
  else if code = 415 then "Unsupported Media Type"
  else if code = 416 then "Requested Range Not Satisfiable"
  else if code = 417 then "Expectation Failed"
  else if code = 418 then "I\x27m a teapot"
  else if code = 421 then "Misdirected Request"
  else if code = 422 then "Unprocessable Entity"
  else if code = 423 then "Locked"
  else if code = 424 then "Failed Dependency"
  else if code = 425 then "Too Early"
  else if code = 426 then "Upgrade Required"
  else if code = 428 then "Precondition Required"
  else if code = 429 then "Too Many Requests"
  else if code = 431 then "Request Header Fields Too Large"
  else if code = 451 then "Unavailable For Legal Reasons"
  else if code = 500 then "Internal Server Error"
  else if code = 501 then "Not Implemented"
  else if code = 502 then "Bad Gateway"
  else if code = 503 then "Service Unavailable"
  else if code = 504 then "Gateway Timeout"
  else if code = 505 then "HTTP Version Not Supported"
  else if code = 506 then "Variant Also Negotiates"
  else if code = 507 then "Insufficient Storage"
  else if code = 508 then "Loop Detected"
  else if code = 510 then "Not Extended"
  else if code = 511 then "Network Authentication Required"
  else ""

/-- The method `HTTPStatusCode.Error` (request.go, lines 153-159):
`fmt.Sprintf("HTTP error %d%s", hsc, text)`. -/
def HTTPStatusCode.Error (hsc : Int) : String :=
  let text := StatusText hsc
  let text := if text ≠ "" then ": " ++ text else text
  "HTTP error " ++ toString hsc ++ text

/-- A Go `error` value, as far as `request.go` builds or forwards one.
`library` is an error made by the standard library (network, JSON, pipe),
known by its message only; `errorString` is `errors.New` and `fmt.Errorf`
without `%w`; `wrapError` and `wrapErrors` are `fmt.Errorf` with one and two
`%w` verbs and keep the formatted message next to the wrapped values;
`HTTPStatusCode` is the package's own error type. -/
inductive GoError where
  | library (msg : String)
  | errorString (s : String)
  | wrapError (msg : String) (err : GoError)
  | wrapErrors (msg : String) (err1 err2 : GoError)
  | HTTPStatusCode (code : Int)
  deriving DecidableEq, Repr

/-- The method `Error()` of a Go error. -/
def GoError.Error : GoError → String
  | .library msg => msg
  | .errorString s => s
  | .wrapError msg _ => msg
  | .wrapErrors msg _ _ => msg
  | .HTTPStatusCode code => HTTPStatusCode.Error code

/-- The errors directly wrapped by an error (`Unwrap`). -/
def GoError.Unwrap : GoError → List GoError
  | .wrapError _ err => [err]
  | .wrapErrors _ err1 err2 => [err1, err2]
  | _ => []

/-- An `http.Header`, as an association list from canonical key to value. -/
abbrev Header := List (String × String)

/-- The method `Header.Set`: the entry for `key` is replaced by `value`. -/
def Header.Set (h : Header) (key value : String) : Header :=
  (key, value) :: h.filter (fun kv => kv.1 ≠ key)

/-- The method `Header.Get`: the first value of `key`, `""` when there is none. -/
def Header.Get (h : Header) (key : String) : String :=
  match h.lookup key with
  | some v => v
  | none => ""

/-- The constant `csrfHeader` (request.go, line 16). -/
def csrfHeader : String := "X-Transmission-Session-Id"

/-- The struct `requestPayload` (request.go, lines 18-22). -/
structure requestPayload (α : Type) where
  Method : String
  Arguments : α
  Tag : Int

/-- The struct `answerPayload` (request.go, lines 24-28) without its
`Arguments` field, which is the caller's result slot. -/
structure answerPayload where
  Result : String
  Tag : Option Int
  deriving DecidableEq, Repr

/-- An `*http.Request` as `Client.request` builds it. -/
structure HTTPRequest where
  Method : String
  URL : String
  Header : Header
  Body : Bytes
  deriving DecidableEq, Repr

/-- A response body stream: the bytes it yields and the error that ends it
(`none` for a clean end of stream). -/
structure Body where
  data : Bytes
  err : Option GoError
  deriving DecidableEq, Repr

/-- An `*http.Response`, as far as `Client.request` reads it. -/
structure HTTPResponse where
  StatusCode : Int
  Header : Header
  Body : Body
  deriving DecidableEq, Repr

/-- What one call of `c.httpC.Do(req)` produces: the response or the error,
and the error the encoder goroutine met writing to the pipe (`some` when
the transport closed the request body before reading all of it). -/
structure Outcome where
  resp : Except GoError HTTPResponse
  writeErr : Option GoError

/-- One HTTP exchange of a call, as the client saw it: the request, the
tag drawn for it, the error of the encoder goroutine and what
`c.httpC.Do` returned. -/
structure Exchange where
  req : HTTPRequest
  tag : Int
  encErr : Option GoError
  resp : Except GoError HTTPResponse

/-- A line written to standard error by the debug branch. -/
inductive Printed where
  | data (b : Bytes)
  | text (s : String)
  deriving DecidableEq, Repr

/-- Pure functions of the Go standard library used by `Client.request`.
`NewRequest url` is the error of `http.NewRequestWithContext(ctx, "POST",
url, pOut)` for the call's context; `Encode` is `json.Encoder.Encode` on a
`requestPayload` (the bytes written or the marshalling error); `Decode body
slot` is `json.Decoder.Decode` into `answerPayload` with `Arguments` set to
the caller's slot: the decoded envelope or the error, and the slot as the
decoder leaves it; `basicAuth` is the `Authorization` value of
`SetBasicAuth`. -/
structure Env (α ρ : Type) where
  NewRequest : String → Option GoError
  Encode : requestPayload α → Except GoError Bytes
  Decode : Body → ρ → Except GoError answerPayload × ρ
  basicAuth : String → String → String

/-- The fields of `Client` that `request.go` reads and never writes.
`httpC` is `nil` (`none`) or the HTTP client, a transition function of the
peer's state; `rnd` is the sequence the random source yields. -/
structure Client (σ : Type) where
  httpC : Option (σ → HTTPRequest → Outcome × σ)
  url : String
  user : String
  password : String
  userAgent : String
  debug : Bool
  rnd : Nat → Int

/-- The mutable world of a call: `sessionID` is the field `c.sessionID`,
`draws` the number of values taken from `c.rnd`, `server` the state of the
HTTP peer, `result` the storage the caller's `result` points to, `stderr`
what was printed, `log` the exchanges made so far, oldest first. -/
structure State (σ ρ : Type) where
  sessionID : String
  draws : Nat
  server : σ
  result : ρ
  stderr : List Printed
  log : List Exchange

/-- What a call returns: the `err` result and the world after it. -/
structure Ret (σ ρ : Type) where
  err : Option GoError
  st : State σ ρ

/-! ## `transmissionrpc/request.go` -/

section Request

variable {σ α ρ : Type}

/-- The method `Client.getSessionID` (request.go, lines 138-142). -/
def getSessionID (st : State σ ρ) : String :=
  st.sessionID

/-- The method `Client.updateSessionID` (request.go, lines 144-148). -/
def updateSessionID (st : State σ ρ) (newID : String) : State σ ρ :=
  { st with sessionID := newID }

/-- The body of `Client.request` (request.go, lines 34-136); `again` stands
for the recursive call `c.request(ctx, method, arguments, result, false)` of
line 91. -/
def requestBody (env : Env α ρ) (c : Client σ) (method : String) (arguments : α)
    (again : State σ ρ → Ret σ ρ) (retry : Bool) (st : State σ ρ) : Ret σ ρ :=
  match c.httpC with
  | none =>
    ⟨some (.errorString "this controller is not initialized, please use the New() function"), st⟩
  | some httpC =>
    match env.NewRequest c.url with
    | some err =>
      ⟨some (.wrapError ("can\x27t prepare request for \x27" ++ method ++ "\x27 method: "
        ++ err.Error) err), st⟩
    | none =>
      let header : Header := []
      let header := header.Set "Content-Type" "application/json"
      let header := header.Set "User-Agent" c.userAgent
      let header := header.Set csrfHeader (getSessionID st)
      let header := header.Set "Authorization" (env.basicAuth c.user c.password)
      -- the marshalling goroutine
      let tag := c.rnd st.draws
      let enc := env.Encode { Method := method, Arguments := arguments, Tag := tag }
      let req : HTTPRequest :=
        { Method := "POST", URL := c.url, Header := header,
          Body := match enc with
            | .ok b => b
            | .error _ => [] }
      -- execute request
      let done := httpC st.server req
      let encErr : Option GoError :=
        match enc with
        | .ok _ => done.1.writeErr
        | .error e => some e
      let st : State σ ρ :=
        { st with draws := st.draws + 1, server := done.2,
                  log := st.log ++ [⟨req, tag, encErr, done.1.resp⟩] }
      match done.1.resp with
      | .error err =>
        match encErr with
        | some encErr =>
          ⟨some (.wrapErrors ("request error: " ++ err.Error
            ++ " | json payload marshall error: " ++ encErr.Error) err encErr), st⟩
        | none => ⟨some (.wrapError ("request error: " ++ err.Error) err), st⟩
      | .ok resp =>
        match encErr with
        | some encErr =>
          ⟨some (.wrapError ("request payload JSON marshalling failed: " ++ encErr.Error)
            encErr), st⟩
        | none =>
          if resp.StatusCode = 409 then
            let st := updateSessionID st (resp.Header.Get csrfHeader)
            if retry then again st
            else ⟨some (.errorString
              "CSRF token invalid 2 times in a row: stopping to avoid infinite loop"), st⟩
          else if resp.StatusCode ≠ 200 then
            ⟨some (.HTTPStatusCode resp.StatusCode), st⟩
          else
            -- debug: read everything, print it, hand a buffer of it to the decoder
            let body : Body := if c.debug then ⟨resp.Body.data, none⟩ else resp.Body
            let st : State σ ρ :=
              if c.debug then
                { st with stderr := st.stderr ++
                    [match resp.Body.err with
                      | none => Printed.data resp.Body.data
                      | some err => Printed.text err.Error] }
              else st
            let answer := env.Decode body st.result
            let st : State σ ρ := { st with result := answer.2 }
            match answer.1 with
            | .error err =>
              ⟨some (.wrapError ("can\x27t unmarshall request answer body: " ++ err.Error) err),
                st⟩
            | .ok answer =>
              match answer.Tag with
              | none =>
                ⟨some (.errorString "http answer does not have a tag within it\x27s payload"),
                  st⟩
              | some answerTag =>
                if answerTag ≠ tag then
                  ⟨some (.errorString "http request tag and answer payload tag do not match"),
                    st⟩
                else if answer.Result ≠ "success" then
                  ⟨some (.errorString
                    ("http request ok but payload does not indicate success: "
                      ++ answer.Result)), st⟩
                else ⟨none, st⟩

/-- The method `Client.request` called with `retry = false`: line 91 is not
reached, so the recursive call never runs. -/
def requestLast (env : Env α ρ) (c : Client σ) (method : String) (arguments : α)
    (st : State σ ρ) : Ret σ ρ :=
  requestBody env c method arguments (fun st => ⟨none, st⟩) false st

/-- The method `Client.request` (request.go, lines 34-136). Its only
recursive call passes `retry = false`. -/
def request (env : Env α ρ) (c : Client σ) (method : String) (arguments : α)
    (retry : Bool) (st : State σ ρ) : Ret σ ρ :=
  requestBody env c method arguments (requestLast env c method arguments) retry st

/-- The method `Client.rpcCall` (request.go, lines 30-32). -/
def rpcCall (env : Env α ρ) (c : Client σ) (method : String) (arguments : α)
    (st : State σ ρ) : Ret σ ρ :=
  request env c method arguments true st

/-- The exchanges a call made: what it appended to the log of `st`. -/
def exchanges (st : State σ ρ) (r : Ret σ ρ) : List Exchange :=
  r.st.log.drop st.log.length

end Request

end Ptool

/-! ## The structure of one attempt

`Client.request` is read in two parts for the proofs: the exchange an attempt
makes (lines 41-80) and what the attempt does with it (lines 69-135).
`requestBody_eq` shows that `requestBody` is their composition. -/

namespace Ptool

section Attempt

variable {σ α ρ : Type}

/-- The request an attempt started in state `st` hands to `c.httpC.Do`. -/
def requestOf (env : Env α ρ) (c : Client σ) (method : String) (arguments : α)
    (st : State σ ρ) : HTTPRequest :=
  { Method := "POST", URL := c.url,
    Header := (((Header.Set [] "Content-Type" "application/json").Set
      "User-Agent" c.userAgent).Set csrfHeader (getSessionID st)).Set
      "Authorization" (env.basicAuth c.user c.password),
    Body := match env.Encode { Method := method, Arguments := arguments,
                                Tag := c.rnd st.draws } with
      | .ok b => b
      | .error _ => [] }

/-- The exchange an attempt started in state `st` makes through `httpC`. -/
def exchangeOf (env : Env α ρ) (c : Client σ) (httpC : σ → HTTPRequest → Outcome × σ)
    (method : String) (arguments : α) (st : State σ ρ) : Exchange :=
  { req := requestOf env c method arguments st,
    tag := c.rnd st.draws,
    encErr := match env.Encode { Method := method, Arguments := arguments,
                                  Tag := c.rnd st.draws } with
      | .ok _ => (httpC st.server (requestOf env c method arguments st)).1.writeErr
      | .error e => some e,
    resp := (httpC st.server (requestOf env c method arguments st)).1.resp }

/-- The world once the exchange of an attempt started in `st` is over. -/
def stateAfter (env : Env α ρ) (c : Client σ) (httpC : σ → HTTPRequest → Outcome × σ)
    (method : String) (arguments : α) (st : State σ ρ) : State σ ρ :=
  { st with draws := st.draws + 1,
            server := (httpC st.server (requestOf env c method arguments st)).2,
            log := st.log ++ [exchangeOf env c httpC method arguments st] }

/-- The body handed to the JSON decoder (lines 101-111): in debug mode a
buffer of the bytes that could be read, otherwise the response body. -/
def decoderInput (debug : Bool) (b : Body) : Body :=
  if debug then ⟨b.data, none⟩ else b

/-- The world after the debug branch (lines 101-111). -/
def afterDebug (debug : Bool) (b : Body) (st : State σ ρ) : State σ ρ :=
  if debug then
    { st with stderr := st.stderr ++
        [match b.err with
          | none => Printed.data b.data
          | some err => Printed.text err.Error] }
  else st

/-- The world after the decoder ran on a 200 response (lines 101-119). -/
def decoded (env : Env α ρ) (c : Client σ) (resp : HTTPResponse) (st : State σ ρ) :
    State σ ρ :=
  { afterDebug c.debug resp.Body st with
    result := (env.Decode (decoderInput c.debug resp.Body)
      (afterDebug c.debug resp.Body st).result).2 }

/-- Lines 69-135 of `Client.request`: what an attempt does with its
exchange `x`, in the world `st` reached after the exchange. -/
def settle (env : Env α ρ) (c : Client σ) (again : State σ ρ → Ret σ ρ) (retry : Bool)
    (x : Exchange) (st : State σ ρ) : Ret σ ρ :=
  match x.resp with
  | .error err =>
    match x.encErr with
    | some encErr =>
      ⟨some (.wrapErrors ("request error: " ++ err.Error
        ++ " | json payload marshall error: " ++ encErr.Error) err encErr), st⟩
    | none => ⟨some (.wrapError ("request error: " ++ err.Error) err), st⟩
  | .ok resp =>
    match x.encErr with
    | some encErr =>
      ⟨some (.wrapError ("request payload JSON marshalling failed: " ++ encErr.Error)
        encErr), st⟩
    | none =>
      if resp.StatusCode = 409 then
        if retry then again (updateSessionID st (resp.Header.Get csrfHeader))
        else ⟨some (.errorString
          "CSRF token invalid 2 times in a row: stopping to avoid infinite loop"),
          updateSessionID st (resp.Header.Get csrfHeader)⟩
      else if resp.StatusCode ≠ 200 then
        ⟨some (.HTTPStatusCode resp.StatusCode), st⟩
      else
        match (env.Decode (decoderInput c.debug resp.Body)
            (afterDebug c.debug resp.Body st).result).1 with
        | .error err =>
          ⟨some (.wrapError ("can\x27t unmarshall request answer body: " ++ err.Error) err),
            decoded env c resp st⟩
        | .ok answer =>
          match answer.Tag with
          | none =>
            ⟨some (.errorString "http answer does not have a tag within it\x27s payload"),
              decoded env c resp st⟩
          | some answerTag =>
            if answerTag ≠ x.tag then
              ⟨some (.errorString "http request tag and answer payload tag do not match"),
                decoded env c resp st⟩
            else if answer.Result ≠ "success" then
              ⟨some (.errorString
                ("http request ok but payload does not indicate success: "
                  ++ answer.Result)), decoded env c resp st⟩
            else ⟨none, decoded env c resp st⟩

/-- An exchange that asks for the retry: the encoder reported no error and
the response has status 409. -/
def Exchange.conflict (x : Exchange) : Option HTTPResponse :=
  match x.resp, x.encErr with
  | .ok resp, none => if resp.StatusCode = 409 then some resp else none
  | _, _ => none

/-- The error of a call whose last exchange is `x`, written from lines
69-133 of `Client.request` for an attempt that cannot retry, as a function of
the exchange, the debug flag and the caller's slot alone; the method name is
not among its arguments. -/
def lastError (env : Env α ρ) (debug : Bool) (x : Exchange) (slot : ρ) : Option GoError :=
  match x.resp, x.encErr with
  | .error err, some encErr =>
    some (.wrapErrors ("request error: " ++ err.Error
      ++ " | json payload marshall error: " ++ encErr.Error) err encErr)
  | .error err, none => some (.wrapError ("request error: " ++ err.Error) err)
  | .ok _, some encErr =>
    some (.wrapError ("request payload JSON marshalling failed: " ++ encErr.Error) encErr)
  | .ok resp, none =>
    if resp.StatusCode = 409 then
      some (.errorString
        "CSRF token invalid 2 times in a row: stopping to avoid infinite loop")
    else if resp.StatusCode ≠ 200 then some (.HTTPStatusCode resp.StatusCode)
    else
      match (env.Decode (decoderInput debug resp.Body) slot).1 with
      | .error err =>
        some (.wrapError ("can\x27t unmarshall request answer body: " ++ err.Error) err)
      | .ok answer =>
        match answer.Tag with
        | none =>
          some (.errorString "http answer does not have a tag within it\x27s payload")
        | some answerTag =>
          if answerTag ≠ x.tag then
            some (.errorString "http request tag and answer payload tag do not match")
          else if answer.Result ≠ "success" then
            some (.errorString
              ("http request ok but payload does not indicate success: "
                ++ answer.Result))
          else none

/-- The response of an exchange when it has status 409. -/
def Exchange.status409 (x : Exchange) : Option HTTPResponse :=
  match x.resp with
  | .ok resp => if resp.StatusCode = 409 then some resp else none
  | .error _ => none

/-- The last response with status 409 among the exchanges `xs`. -/
def last409 (xs : List Exchange) : Option HTTPResponse :=
  (xs.filterMap Exchange.status409).getLast?

end Attempt

end Ptool

/-! ## Concrete scenarios

A peer that answers from a fixed script, a small decoder and the clients and
worlds used to run the model on concrete inputs. -/

namespace Ptool

/-- A peer that answers the `n`-th request with the `n`-th entry of a
script, and with a network error once the script is used up. -/
def scripted : List (Except GoError HTTPResponse) → HTTPRequest →
    Outcome × List (Except GoError HTTPResponse)
  | [], _ => (⟨.error (.library "connection refused"), none⟩, [])
  | r :: rs, _ => (⟨r, none⟩, rs)

/-- A response with the given status, session header and body bytes. -/
def answer (status : Int) (token : String) (body : Bytes) :
    Except GoError HTTPResponse :=
  .ok ⟨status, [(csrfHeader, token)], ⟨body, none⟩⟩

/-- A decoder for four bodies, by their first byte: 1 is a success envelope
with tag 42, 2 a success envelope with tag 7, 3 an envelope with tag 42 and
result "no such method", 4 an envelope with tag 7 and result "no such
method"; anything else is not an envelope. The first three fill the slot. -/
def sampleDecode (b : Body) (slot : String) : Except GoError answerPayload × String :=
  match b.data with
  | 1 :: _ => (.ok ⟨"success", some 42⟩, "version x")
  | 2 :: _ => (.ok ⟨"success", some 7⟩, "version x")
  | 3 :: _ => (.ok ⟨"no such method", some 42⟩, "version x")
  | 4 :: _ => (.ok ⟨"no such method", some 7⟩, slot)
  | _ => (.error (.library "unexpected end of JSON input"), slot)

/-- A library in which requests can be prepared and payloads encoded. -/
def sampleEnv : Env Unit String :=
  { NewRequest := fun _ => none
    Encode := fun _ => .ok [123, 125]
    Decode := sampleDecode
    basicAuth := fun user password => "Basic " ++ user ++ ":" ++ password }

/-- A library in which the request arguments cannot be marshalled. -/
def failingEncodeEnv : Env Unit String :=
  { sampleEnv with
    Encode := fun _ => .error (.library "json: unsupported type: chan int") }

/-- A library in which the endpoint URL does not parse. -/
def badURLEnv : Env Unit String :=
  { sampleEnv with
    NewRequest := fun _ => some (.library "missing protocol scheme") }

/-- An initialized client whose random source always yields 42. -/
def sampleClient : Client (List (Except GoError HTTPResponse)) :=
  { httpC := some scripted, url := "http://localhost:9091/transmission/rpc",
    user := "user", password := "secret", userAgent := "ptool", debug := false,
    rnd := fun _ => 42 }

/-- A client that was not made by `New()`. -/
def uninitializedClient : Client (List (Except GoError HTTPResponse)) :=
  { sampleClient with httpC := none }

/-- The world before a call: token "old", empty slot, the peer about to
play `script`. -/
def world (script : List (Except GoError HTTPResponse)) :
    State (List (Except GoError HTTPResponse)) String :=
  { sessionID := "old", draws := 0, server := script, result := "", stderr := [],
    log := [] }

/-- Both attempts are refused: 409 with token "abc123", then 409 with token
"def456". -/
def twoConflicts : List (Except GoError HTTPResponse) :=
  [answer 409 "abc123" [], answer 409 "def456" []]

/-- The token is rotated once: 409 with token "abc123", then 200 with a
success envelope for tag 42. -/
def conflictThenSuccess : List (Except GoError HTTPResponse) :=
  [answer 409 "abc123" [], answer 200 "abc123" [1]]

end Ptool

namespace Ptool

/-- A server error whose body holds an envelope with tag 7. -/
def errorWithForeignTag : List (Except GoError HTTPResponse) :=
  [answer 500 "old" [2]]

/-- A 200 answer whose envelope has tag 7 and result "success". -/
def successWithForeignTag : List (Except GoError HTTPResponse) :=
  [answer 200 "old" [2]]

/-- A 200 answer whose envelope has tag 7 and result "no such method". -/
def failureWithForeignTag : List (Except GoError HTTPResponse) :=
  [answer 200 "old" [4]]

/-- A 200 answer whose envelope has tag 42 and result "no such method". -/
def failureWithOwnTag : List (Except GoError HTTPResponse) :=
  [answer 200 "old" [3]]

/-- A 200 answer with a success envelope for tag 42. -/
def plainSuccess : List (Except GoError HTTPResponse) :=
  [answer 200 "old" [1]]

/-- A 500 answer without a body. -/
def serverError : List (Except GoError HTTPResponse) :=
  [answer 500 "ignored" []]

end Ptool

namespace Ptool

/-- A single 409 answer with token "abc123". -/
def oneConflict : List (Except GoError HTTPResponse) :=
  [answer 409 "abc123" []]

end Ptool

namespace Ptool

/-- An initialized client whose random source yields 42, 43, 44, ... -/
def countingClient : Client (List (Except GoError HTTPResponse)) :=
  { sampleClient with rnd := fun n => 42 + n }

/-- The sample client with the debug flag set. -/
def debugClient : Client (List (Except GoError HTTPResponse)) :=
  { sampleClient with debug := true }

end Ptool

/-! ## `util/datetime.go`: `ExtractTime`

Go strings are modelled by Lean strings (valid UTF-8); lengths and offsets
are counted in bytes of the UTF-8 encoding, as `len` and slicing do in Go.
The regular expression of `ExtractTime` is modelled by a matcher written for
it, following the leftmost-first rule of Go's `regexp` package. -/

namespace Ptool

/-- The class `\d` of Go's `regexp`: the ASCII digits. -/
def isDigit (c : Char) : Bool :=
  decide ('0' ≤ c ∧ c ≤ '9')

/-- The class `\s` of Go's `regexp`: tab, line feed, form feed, carriage
return and space. -/
def isSpace (c : Char) : Bool :=
  c = '\t' || c = '\n' || c = Char.ofNat 12 || c = '\r' || c = ' '

/-- Match `\d{n}` at the start of `s`: the digits matched and the rest. -/
def takeDigits : Nat → List Char → Option (List Char × List Char)
  | 0, s => some ([], s)
  | _ + 1, [] => none
  | n + 1, c :: s =>
    if isDigit c then (takeDigits n s).map (fun p => (c :: p.1, p.2)) else none

/-- Match the literal character `c` at the start of `s`. -/
def takeChar (c : Char) : List Char → Option (List Char × List Char)
  | [] => none
  | d :: s => if d = c then some ([d], s) else none

/-- Match the group `\d{4}-\d{2}-\d{2}\s*\d{2}:\d{2}:\d{2}` at the start of
`s`: the text matched and the rest. `\s*` is greedy; as a digit must follow
it, taking every space is the only way to match. -/
def matchTimeGroup (s : List Char) : Option (List Char × List Char) := do
  let (year, s) ← takeDigits 4 s
  let (dash1, s) ← takeChar '-' s
  let (month, s) ← takeDigits 2 s
  let (dash2, s) ← takeChar '-' s
  let (day, s) ← takeDigits 2 s
  let spaces := s.takeWhile isSpace
  let s := s.dropWhile isSpace
  let (hour, s) ← takeDigits 2 s
  let (colon1, s) ← takeChar ':' s
  let (minute, s) ← takeDigits 2 s
  let (colon2, s) ← takeChar ':' s
  let (second, s) ← takeDigits 2 s
  some (year ++ dash1 ++ month ++ dash2 ++ day ++ spaces ++ hour ++ colon1 ++ minute
    ++ colon2 ++ second, s)

/-- Match `.*?(?P<time>...)` starting exactly at the start of `s`: the whole
match `m[0]` and the group `time`. The lazy `.*?` first tries to take
nothing, then one more character at a time; `.` does not match a line
feed. -/
def matchTimeRegexpAt : List Char → Option (List Char × List Char)
  | [] => none
  | c :: s =>
    match matchTimeGroup (c :: s) with
    | some (time, _) => some (time, time)
    | none =>
      if c ≠ '\n' then (matchTimeRegexpAt s).map (fun m => (c :: m.1, m.2)) else none

/-- The call `timeRegexp.FindStringSubmatch(str)` of `ExtractTime` for
`` timeRegexp = `.*?(?P<time>\d{4}-\d{2}-\d{2}\s*\d{2}:\d{2}:\d{2})` ``: the
leftmost match, as the pair of `m[0]` and `m[timeRegexp.SubexpIndex("time")]`,
or `none` when nothing matches. -/
def timeRegexpFindStringSubmatch : List Char → Option (List Char × List Char)
  | [] => none
  | c :: s =>
    match matchTimeRegexpAt (c :: s) with
    | some m => some m
    | none => timeRegexpFindStringSubmatch s

/-- The function `ExtractTime` (datetime.go, lines 11-24). `ParseTime` is
the function `ParseTime` of the same file, which reads the clock; it
returns the pair of its results `(int64, error)`. The result is the pair
`(time, offset)`. -/
def ExtractTime {L : Type} (ParseTime : String → L → Int × Option GoError)
    (str : String) (location : L) : Int × Int :=
  let m := timeRegexpFindStringSubmatch str.data
  let strOffset : String × Int :=
    match m with
    | some (m0, time) => (String.mk time, ((String.mk m0).utf8ByteSize : Int))
    | none => (str, 0)
  let parsed := ParseTime strOffset.1 location
  let offset : Int := if parsed.2 ≠ none then 0 else strOffset.2
  (parsed.1, offset)

/-- The bytes of the Go slice expression `str[:n]`. -/
def slicePrefix (str : String) (n : Nat) : List UInt8 :=
  str.toUTF8.data.toList.take n

/-- A `ParseTime` for one input: "2024-01-02 03:04:05" is 1704164645 (in
UTC); everything else is refused. -/
def sampleParseTime (str : String) (_location : Unit) : Int × Option GoError :=
  if str = "2024-01-02 03:04:05" then (1704164645, none)
  else (0, some (.errorString "invalid time str"))

end Ptool

/-! ## `util/datetime.go`: `FormatDuration`

Go's `int64` is modelled by `Int`; `/` and `%` of Go truncate toward zero
(`Int.tdiv`, `Int.tmod`). No operation of `FormatDuration` overflows. -/

namespace Ptool

/-- The `for` loop of `FormatDuration` (lines 64-72) over the remaining
strings, with the current values of `str` and `i`. -/
def FormatDuration.loop : List String → String → Nat → String
  | [], str, _ => str
  | s :: strs, str, i =>
    let str := if s ≠ "" then str ++ s else str
    let i := if s ≠ "" then i + 1 else i
    if i = 2 then str else FormatDuration.loop strs str i

/-- The function `FormatDuration` (datetime.go, lines 34-74).
`fmt.Sprint(d, "d")` prints the number and the string without a space, as one
of the two operands is a string. -/
def FormatDuration (seconds : Int) : String :=
  let d := seconds.tdiv 86400
  let dStr := if d > 0 then toString d ++ "d" else ""
  let seconds := seconds.tmod 86400
  let h := seconds.tdiv 3600
  let hStr := if h > 0 then toString h ++ "h" else ""
  let seconds := seconds.tmod 3600
  let m := seconds.tdiv 60
  let mStr := if m > 0 then toString m ++ "m" else ""
  let seconds := seconds.tmod 60
  let sStr := if seconds > 0 then toString seconds ++ "s" else ""
  FormatDuration.loop [dStr, hStr, mStr, sStr] "" 0

/-- The specification of `FormatDuration` for `seconds ≥ 0`: the first two
non-zero components among days, hours, minutes and seconds, each followed by
its unit, concatenated in that order. -/
def firstTwoUnits (seconds : Int) : String :=
  String.join
    ((([(seconds / 86400, "d"), (seconds % 86400 / 3600, "h"),
        (seconds % 3600 / 60, "m"), (seconds % 60, "s")].filter
          (fun p => p.1 ≠ 0)).take 2).map (fun p => toString p.1 ++ p.2))

end Ptool

/-! ## `util/datetime.go`: `ParseTimeWithNow`

A `time.Time` is modelled by its Unix time in seconds, which is all that
`ParseTimeWithNow` reads of `now` and returns of the times it builds. The
functions of the packages `time`, and `ParseTimeDuration` of this file, whose
callee `ParseDuration` is not among the sources, are the fields of
`TimeEnv`. -/

namespace Ptool

/-- The predicate `unicode.IsSpace`, by which `strings.TrimSpace` trims. -/
def isUnicodeSpace (c : Char) : Bool :=
  c = '\t' || c = '\n' || c = Char.ofNat 0x0B || c = Char.ofNat 0x0C || c = '\r'
    || c = ' ' || c = Char.ofNat 0x85 || c = Char.ofNat 0xA0 || c = Char.ofNat 0x1680
    || (0x2000 ≤ c.toNat && c.toNat ≤ 0x200A) || c = Char.ofNat 0x2028
    || c = Char.ofNat 0x2029 || c = Char.ofNat 0x202F || c = Char.ofNat 0x205F
    || c = Char.ofNat 0x3000

/-- The function `strings.TrimSpace`: leading and trailing white space
removed. -/
def TrimSpace (s : String) : String :=
  String.mk ((s.data.dropWhile isUnicodeSpace).rdropWhile isUnicodeSpace)

/-- The constant `strconv.IntSize`, the size of `int` in bits. -/
def IntSize : Nat := 64

/-- The digit loop of `strconv.Atoi`: `n = n*10 + int(ch - '0')` for every
character, a syntax error (`none`) at the first character that is not a
digit. -/
def atoiDigits : List Char → Nat → Option Nat
  | [], n => some n
  | ch :: s, n => if isDigit ch then atoiDigits s (n * 10 + (ch.toNat - '0'.toNat)) else none

/-- The function `strconv.Atoi`: an optional sign and decimal digits, in the
range of `int`. Of the error only its being `nil` or not is used, so the
message does not quote the input. On a range error the nearest bound is
returned with the error. -/
def Atoi (s : String) : Int × Option GoError :=
  let neg : Bool := s.data.head? = some '-'
  let digits := if s.data.head? = some '-' ∨ s.data.head? = some '+' then s.data.tail
    else s.data
  if digits = [] then (0, some (.library "strconv.Atoi: invalid syntax"))
  else
    match atoiDigits digits 0 with
    | none => (0, some (.library "strconv.Atoi: invalid syntax"))
    | some n =>
      if neg then
        if n > 2 ^ (IntSize - 1) then
          (-(2 ^ (IntSize - 1) : Int), some (.library "strconv.Atoi: value out of range"))
        else (-(n : Int), none)
      else if n > 2 ^ (IntSize - 1) - 1 then
        ((2 ^ (IntSize - 1) : Int) - 1, some (.library "strconv.Atoi: value out of range"))
      else ((n : Int), none)

/-- The call `regexp.MatchString("^\\d{4}-\\d{2}-\\d{2}\\d{2}:\\d{2}:\\d{2}$",
str)`; without the flag `m`, `$` matches at the end of the text only. -/
def matchCompactLayout (s : List Char) : Bool :=
  (do
    let (_, s) ← takeDigits 4 s
    let (_, s) ← takeChar '-' s
    let (_, s) ← takeDigits 2 s
    let (_, s) ← takeChar '-' s
    let (_, s) ← takeDigits 2 s
    let (_, s) ← takeDigits 2 s
    let (_, s) ← takeChar ':' s
    let (_, s) ← takeDigits 2 s
    let (_, s) ← takeChar ':' s
    let (_, s) ← takeDigits 2 s
    if s = [] then some () else none).isSome

/-- The call `regexp.MatchString("^\\d{4}-\\d{2}-\\d{2}$", str)`. -/
def matchDateLayout (s : List Char) : Bool :=
  (do
    let (_, s) ← takeDigits 4 s
    let (_, s) ← takeChar '-' s
    let (_, s) ← takeDigits 2 s
    let (_, s) ← takeChar '-' s
    let (_, s) ← takeDigits 2 s
    if s = [] then some () else none).isSome

/-- The functions `ParseTimeWithNow` calls, for locations of type `L`
(`*time.Location`, not nil). `Local` is `time.Local`; `ParseInLocation layout
value loc` is the `Unix()` of the time `time.ParseInLocation` returns, and its
error; `ParseTimeDuration` is the function of that name of datetime.go (lines
153-182); `DateOfDay unix loc` is the `Unix()` of `time.Date(t.Year(),
t.Month(), t.Day(), 0, 0, 0, 0, loc)` for the local time `t` at the Unix time
`unix`. -/
structure TimeEnv (L : Type) where
  Local : L
  ParseInLocation : String → String → L → Int × Option GoError
  ParseTimeDuration : String → Int × Option GoError
  DateOfDay : Int → L → Int

/-- The method `Time.Truncate` for a time with whole seconds and a duration
of `d > 0` seconds: the time rounded down to a multiple of `d` since the zero
time, which is 62135596800 seconds before the Unix epoch. -/
def Truncate (unix d : Int) : Int :=
  unix - (unix + 62135596800) % d

/-- The function `ParseTimeWithNow` (datetime.go, lines 105-150). `location`
is `none` for a nil pointer; `now` is `now.Unix()`. -/
def ParseTimeWithNow {L : Type} (env : TimeEnv L) (str : String) (location : Option L)
    (now : Int) : Int × Option GoError :=
  let str := TrimSpace str
  if str = "" then (0, some (.errorString "empty str"))
  else if (Atoi str).2 = none then ((Atoi str).1, none)
  else
    --  handle yyyy-MM-ddHH:mm:ss
    let str := if matchCompactLayout str.data then
      String.mk (str.data.take 10 ++ " ".data ++ str.data.drop 10) else str
    --  handle yyyy-MM-dd
    let str := if matchDateLayout str.data then str ++ " 00:00:00" else str
    let location := match location with
      | none => env.Local
      | some l => l
    let t := env.ParseInLocation "2006-01-02 15:04:05" str location
    if t.2 = none then (t.1, none)
    else
      let td := env.ParseTimeDuration str
      if td.2 = none then
        let t := now - td.1
        let t :=
          if td.1.tmod 86400 = 0 ∧ td.1 ≥ 86400 * 30 then
            env.DateOfDay (Truncate t (24 * 3600)) location
          else if td.1.tmod 3600 = 0 ∧ td.1 ≥ 86400 then Truncate t 3600
          else if td.1.tmod 60 = 0 ∧ td.1 ≥ 3600 then Truncate t 60
          else t
        (t, none)
      else (0, some (.errorString "invalid time str"))

/-- Lines 127-149 of `ParseTimeWithNow`: what it does with the string `str`
it has arrived at, once the integer and the two layouts without a space have
been dealt with. -/
def parseLayoutOrDuration {L : Type} (env : TimeEnv L) (str : String)
    (location : Option L) (now : Int) : Int × Option GoError :=
  let location := match location with
    | none => env.Local
    | some l => l
  let t := env.ParseInLocation "2006-01-02 15:04:05" str location
  if t.2 = none then (t.1, none)
  else
    let td := env.ParseTimeDuration str
    if td.2 = none then
      let t := now - td.1
      let t :=
        if td.1.tmod 86400 = 0 ∧ td.1 ≥ 86400 * 30 then
          env.DateOfDay (Truncate t (24 * 3600)) location
        else if td.1.tmod 3600 = 0 ∧ td.1 ≥ 86400 then Truncate t 3600
        else if td.1.tmod 60 = 0 ∧ td.1 ≥ 3600 then Truncate t 60
        else t
      (t, none)
    else (0, some (.errorString "invalid time str"))

/-- The function `ParseTime` (datetime.go, lines 100-103); `clock` is the
value of `time.Now().Unix()` when it is called. -/
def ParseTime {L : Type} (env : TimeEnv L) (clock : Int) (str : String)
    (location : Option L) : Int × Option GoError :=
  ParseTimeWithNow env str location clock

/-- The value of a string of decimal digits. -/
def decimalValue (digits : List Char) : Nat :=
  digits.foldl (fun n ch => n * 10 + (ch.toNat - '0'.toNat)) 0

/-- A calendar date-time by its six numbers. -/
structure DateTime where
  year : Nat
  month : Nat
  day : Nat
  hour : Nat
  minute : Nat
  second : Nat

/-- The last two decimal digits of a number. -/
def pad2 (n : Nat) : List Char :=
  [Nat.digitChar (n / 10 % 10), Nat.digitChar (n % 10)]

/-- The last four decimal digits of a number. -/
def pad4 (n : Nat) : List Char :=
  [Nat.digitChar (n / 1000 % 10), Nat.digitChar (n / 100 % 10),
    Nat.digitChar (n / 10 % 10), Nat.digitChar (n % 10)]

/-- The date-time in the layout "yyyy-MM-ddHH:mm:ss". -/
def DateTime.compact (dt : DateTime) : String :=
  String.mk (pad4 dt.year ++ ['-'] ++ pad2 dt.month ++ ['-'] ++ pad2 dt.day
    ++ pad2 dt.hour ++ [':'] ++ pad2 dt.minute ++ [':'] ++ pad2 dt.second)

/-- The date-time in the layout "yyyy-MM-dd HH:mm:ss". -/
def DateTime.spaced (dt : DateTime) : String :=
  String.mk (pad4 dt.year ++ ['-'] ++ pad2 dt.month ++ ['-'] ++ pad2 dt.day ++ [' ']
    ++ pad2 dt.hour ++ [':'] ++ pad2 dt.minute ++ [':'] ++ pad2 dt.second)

/-- A library for one date-time: in every location "2024-01-02 03:04:05" is
the Unix time 1704164645, and nothing else is a time or a duration. -/
def sampleTimeEnv : TimeEnv Unit :=
  { Local := ()
    ParseInLocation := fun _ value _ =>
      if value = "2024-01-02 03:04:05" then (1704164645, none)
      else (0, some (.library "parsing time: cannot parse"))
    ParseTimeDuration := fun _ => (0, some (.library "invalid duration"))
    DateOfDay := fun unix _ => unix }

end Ptool

namespace Ptool

section Lemmas

variable {σ α ρ : Type}

theorem requestBody_eq (env : Env α ρ) (c : Client σ) (method : String) (arguments : α)
    (again : State σ ρ → Ret σ ρ) (retry : Bool) (st : State σ ρ)
    (httpC : σ → HTTPRequest → Outcome × σ) (hc : c.httpC = some httpC)
    (hn : env.NewRequest c.url = none) :
    requestBody env c method arguments again retry st =
      settle env c again retry (exchangeOf env c httpC method arguments st)
        (stateAfter env c httpC method arguments st) := by
  unfold requestBody
  simp only [hc, hn]
  rfl

theorem requestBody_uninitialized (env : Env α ρ) (c : Client σ) (method : String)
    (arguments : α) (again : State σ ρ → Ret σ ρ) (retry : Bool) (st : State σ ρ)
    (hc : c.httpC = none) :
    requestBody env c method arguments again retry st =
      ⟨some (.errorString
        "this controller is not initialized, please use the New() function"), st⟩ := by
  unfold requestBody
  simp only [hc]

theorem requestBody_unprepared (env : Env α ρ) (c : Client σ) (method : String)
    (arguments : α) (again : State σ ρ → Ret σ ρ) (retry : Bool) (st : State σ ρ)
    (httpC : σ → HTTPRequest → Outcome × σ) (hc : c.httpC = some httpC)
    (err : GoError) (hn : env.NewRequest c.url = some err) :
    requestBody env c method arguments again retry st =
      ⟨some (.wrapError ("can\x27t prepare request for \x27" ++ method ++ "\x27 method: "
        ++ err.Error) err), st⟩ := by
  unfold requestBody
  simp only [hc, hn]

/-- When the exchange asks for the retry, `settle` updates the token and
either retries or gives up. -/
theorem settle_conflict (env : Env α ρ) (c : Client σ) (again : State σ ρ → Ret σ ρ)
    (retry : Bool) (x : Exchange) (st : State σ ρ) (resp : HTTPResponse)
    (h : x.conflict = some resp) :
    settle env c again retry x st =
      if retry then again (updateSessionID st (resp.Header.Get csrfHeader))
      else ⟨some (.errorString
        "CSRF token invalid 2 times in a row: stopping to avoid infinite loop"),
        updateSessionID st (resp.Header.Get csrfHeader)⟩ := by
  unfold Exchange.conflict at h
  unfold settle
  cases hr : x.resp with
  | error e => simp [hr] at h
  | ok r =>
    cases he : x.encErr with
    | some e => simp [hr, he] at h
    | none =>
      simp only [hr, he] at h
      by_cases hs : r.StatusCode = 409
      · simp only [hs, if_true, Option.some.injEq] at h
        subst h
        simp only [hs, if_true]
      · simp [hs] at h

/-- When the exchange does not ask for the retry, `settle` ignores `again`
and `retry`, and changes neither the log nor the token. -/
theorem settle_no_conflict (env : Env α ρ) (c : Client σ) (again : State σ ρ → Ret σ ρ)
    (retry : Bool) (x : Exchange) (st : State σ ρ) (h : x.conflict = none) :
    settle env c again retry x st = settle env c (fun s => ⟨none, s⟩) false x st ∧
    (settle env c again retry x st).st.log = st.log ∧
    (settle env c again retry x st).st.sessionID = st.sessionID := by
  unfold Exchange.conflict at h
  unfold settle decoded afterDebug
  cases hr : x.resp with
  | error e => cases he : x.encErr <;> simp
  | ok resp =>
    cases he : x.encErr with
    | some e => simp
    | none =>
      simp only [hr, he] at h
      have hs : resp.StatusCode ≠ 409 := by
        intro hs
        simp [hs] at h
      simp only [hs, if_false]
      refine ⟨trivial, ?_, ?_⟩ <;>
      · split_ifs <;> (try split) <;> (try split) <;> (try split_ifs) <;> rfl

end Lemmas

end Ptool

namespace Ptool

section Run

variable {σ α ρ : Type}

theorem afterDebug_frame (debug : Bool) (b : Body) (st : State σ ρ) :
    (afterDebug debug b st).result = st.result ∧
    (afterDebug debug b st).sessionID = st.sessionID ∧
    (afterDebug debug b st).log = st.log := by
  unfold afterDebug
  cases debug <;> simp

theorem decoded_frame (env : Env α ρ) (c : Client σ) (resp : HTTPResponse)
    (st : State σ ρ) :
    (decoded env c resp st).result
      = (env.Decode (decoderInput c.debug resp.Body) st.result).2 ∧
    (decoded env c resp st).sessionID = st.sessionID ∧
    (decoded env c resp st).log = st.log := by
  unfold decoded
  simp [afterDebug_frame]

theorem stateAfter_frame (env : Env α ρ) (c : Client σ)
    (httpC : σ → HTTPRequest → Outcome × σ) (method : String) (arguments : α)
    (st : State σ ρ) :
    (stateAfter env c httpC method arguments st).result = st.result ∧
    (stateAfter env c httpC method arguments st).sessionID = st.sessionID ∧
    (stateAfter env c httpC method arguments st).log
      = st.log ++ [exchangeOf env c httpC method arguments st] ∧
    (stateAfter env c httpC method arguments st).draws = st.draws + 1 := by
  unfold stateAfter
  simp

theorem exchanges_of_log (st : State σ ρ) (r : Ret σ ρ) (xs : List Exchange)
    (h : r.st.log = st.log ++ xs) : exchanges st r = xs := by
  unfold exchanges
  rw [h]
  exact List.drop_left _ _

/-- Settling an exchange without retry leaves the log alone, and changes
the token exactly when the exchange asks for the retry. -/
theorem settle_last_frame (env : Env α ρ) (c : Client σ) (again : State σ ρ → Ret σ ρ)
    (x : Exchange) (st : State σ ρ) :
    (settle env c again false x st).st.log = st.log ∧
    (settle env c again false x st).st.sessionID =
      (match x.conflict with
        | some resp => resp.Header.Get csrfHeader
        | none => st.sessionID) := by
  cases hx : x.conflict with
  | none =>
    have h := settle_no_conflict env c again false x st hx
    exact ⟨h.2.1, h.2.2⟩
  | some resp =>
    have h := settle_conflict env c again false x st resp hx
    rw [h]
    simp [updateSessionID]

/-- The three shapes of a call: no exchange, one exchange that does not ask
for the retry, or a first exchange that does and a second one that is
settled without a further retry. -/
theorem rpcCall_run (env : Env α ρ) (c : Client σ) (method : String) (arguments : α)
    (st : State σ ρ) :
    (exchanges st (rpcCall env c method arguments st) = [] ∧
      (rpcCall env c method arguments st).st = st ∧
      (rpcCall env c method arguments st).err ≠ none ∧
      (c.httpC = none ∨ env.NewRequest c.url ≠ none)) ∨
    (∃ httpC, c.httpC = some httpC ∧ env.NewRequest c.url = none ∧
      (exchangeOf env c httpC method arguments st).conflict = none ∧
      exchanges st (rpcCall env c method arguments st)
        = [exchangeOf env c httpC method arguments st] ∧
      rpcCall env c method arguments st
        = settle env c (fun s => ⟨none, s⟩) false
            (exchangeOf env c httpC method arguments st)
            (stateAfter env c httpC method arguments st)) ∨
    (∃ httpC resp, c.httpC = some httpC ∧ env.NewRequest c.url = none ∧
      (exchangeOf env c httpC method arguments st).conflict = some resp ∧
      exchanges st (rpcCall env c method arguments st)
        = [exchangeOf env c httpC method arguments st,
           exchangeOf env c httpC method arguments
            (updateSessionID (stateAfter env c httpC method arguments st)
              (resp.Header.Get csrfHeader))] ∧
      rpcCall env c method arguments st
        = settle env c (fun s => ⟨none, s⟩) false
            (exchangeOf env c httpC method arguments
              (updateSessionID (stateAfter env c httpC method arguments st)
                (resp.Header.Get csrfHeader)))
            (stateAfter env c httpC method arguments
              (updateSessionID (stateAfter env c httpC method arguments st)
                (resp.Header.Get csrfHeader)))) := by
  cases hc : c.httpC with
  | none =>
    left
    have h := requestBody_uninitialized env c method arguments
      (requestLast env c method arguments) true st hc
    unfold rpcCall request
    rw [h]
    exact ⟨exchanges_of_log _ _ [] (by simp), rfl, by simp, Or.inl rfl⟩
  | some httpC =>
    cases hn : env.NewRequest c.url with
    | some err =>
      left
      have h := requestBody_unprepared env c method arguments
        (requestLast env c method arguments) true st httpC hc err hn
      unfold rpcCall request
      rw [h]
      exact ⟨exchanges_of_log _ _ [] (by simp), rfl, by simp, Or.inr (by simp)⟩
    | none =>
      right
      have h := requestBody_eq env c method arguments
        (requestLast env c method arguments) true st httpC hc hn
      cases hx : (exchangeOf env c httpC method arguments st).conflict with
      | none =>
        left
        have hs := settle_no_conflict env c (requestLast env c method arguments) true
          (exchangeOf env c httpC method arguments st)
          (stateAfter env c httpC method arguments st) hx
        refine ⟨httpC, rfl, rfl, hx, ?_, ?_⟩
        · apply exchanges_of_log
          unfold rpcCall request
          rw [h, hs.2.1, (stateAfter_frame env c httpC method arguments st).2.2.1]
        · unfold rpcCall request
          rw [h, hs.1]
      | some resp =>
        right
        have hs := settle_conflict env c (requestLast env c method arguments) true
          (exchangeOf env c httpC method arguments st)
          (stateAfter env c httpC method arguments st) resp hx
        simp only [if_true] at hs
        have h2 := requestBody_eq env c method arguments (fun s => ⟨none, s⟩) false
          (updateSessionID (stateAfter env c httpC method arguments st)
            (resp.Header.Get csrfHeader)) httpC hc hn
        have hr : rpcCall env c method arguments st
            = settle env c (fun s => ⟨none, s⟩) false
              (exchangeOf env c httpC method arguments
                (updateSessionID (stateAfter env c httpC method arguments st)
                  (resp.Header.Get csrfHeader)))
              (stateAfter env c httpC method arguments
                (updateSessionID (stateAfter env c httpC method arguments st)
                  (resp.Header.Get csrfHeader))) := by
          unfold rpcCall request
          rw [h, hs]
          exact h2
        refine ⟨httpC, resp, rfl, rfl, hx, ?_, hr⟩
        apply exchanges_of_log
        rw [hr, (settle_last_frame env c _ _ _).1,
          (stateAfter_frame env c httpC method arguments _).2.2.1]
        unfold updateSessionID
        simp [(stateAfter_frame env c httpC method arguments st).2.2.1]

end Run

end Ptool

namespace Ptool

section Settle

variable {σ α ρ : Type}

/-- The request of an attempt carries the token stored when it starts. -/
theorem requestOf_csrf (env : Env α ρ) (c : Client σ) (method : String) (arguments : α)
    (st : State σ ρ) :
    (requestOf env c method arguments st).Header.Get csrfHeader = st.sessionID := by
  simp [requestOf, Header.Get, Header.Set, List.lookup, csrfHeader, getSessionID,
    List.filter]

theorem exchangeOf_req (env : Env α ρ) (c : Client σ)
    (httpC : σ → HTTPRequest → Outcome × σ) (method : String) (arguments : α)
    (st : State σ ρ) :
    (exchangeOf env c httpC method arguments st).req.Header.Get csrfHeader
      = st.sessionID ∧
    (exchangeOf env c httpC method arguments st).tag = c.rnd st.draws :=
  ⟨requestOf_csrf env c method arguments st, rfl⟩

theorem conflict_eq_some (x : Exchange) (resp : HTTPResponse) :
    x.conflict = some resp ↔
      x.encErr = none ∧ x.resp = .ok resp ∧ resp.StatusCode = 409 := by
  unfold Exchange.conflict
  cases hr : x.resp with
  | error e => simp
  | ok r =>
    cases he : x.encErr with
    | some e => simp
    | none =>
      by_cases hs : r.StatusCode = 409
      · simp only [hs, if_true, Option.some.injEq, Except.ok.injEq, true_and]
        constructor
        · intro h; subst h; exact ⟨rfl, hs⟩
        · intro h; exact h.1
      · simp only [hs, if_false, Except.ok.injEq, true_and]
        constructor
        · intro h; cases h
        · intro h; exact absurd (h.1 ▸ h.2) hs

/-- What settling an exchange without retry returns, case by case. -/
theorem settle_last_err (env : Env α ρ) (c : Client σ) (again : State σ ρ → Ret σ ρ)
    (x : Exchange) (st : State σ ρ) :
    (settle env c again false x st).err =
      (match x.resp, x.encErr with
        | .error err, some encErr =>
          some (.wrapErrors ("request error: " ++ err.Error
            ++ " | json payload marshall error: " ++ encErr.Error) err encErr)
        | .error err, none => some (.wrapError ("request error: " ++ err.Error) err)
        | .ok _, some encErr =>
          some (.wrapError ("request payload JSON marshalling failed: " ++ encErr.Error)
            encErr)
        | .ok resp, none =>
          if resp.StatusCode = 409 then
            some (.errorString
              "CSRF token invalid 2 times in a row: stopping to avoid infinite loop")
          else if resp.StatusCode ≠ 200 then some (.HTTPStatusCode resp.StatusCode)
          else
            match (env.Decode (decoderInput c.debug resp.Body) st.result).1 with
            | .error err =>
              some (.wrapError ("can\x27t unmarshall request answer body: " ++ err.Error)
                err)
            | .ok answer =>
              match answer.Tag with
              | none =>
                some (.errorString "http answer does not have a tag within it\x27s payload")
              | some answerTag =>
                if answerTag ≠ x.tag then
                  some (.errorString "http request tag and answer payload tag do not match")
                else if answer.Result ≠ "success" then
                  some (.errorString
                    ("http request ok but payload does not indicate success: "
                      ++ answer.Result))
                else none) ∧
    (settle env c again false x st).st.result =
      (match x.resp, x.encErr with
        | .ok resp, none =>
          if resp.StatusCode = 409 ∨ resp.StatusCode ≠ 200 then st.result
          else (env.Decode (decoderInput c.debug resp.Body) st.result).2
        | _, _ => st.result) := by
  unfold settle
  cases hr : x.resp with
  | error e => cases he : x.encErr <;> simp
  | ok resp =>
    cases he : x.encErr with
    | some e => simp
    | none =>
      simp only [(afterDebug_frame c.debug resp.Body st).1]
      by_cases h9 : resp.StatusCode = 409
      · simp [h9, updateSessionID]
      · simp only [h9, if_false, false_or]
        by_cases h2 : resp.StatusCode = 200
        · have h2n : ¬ (resp.StatusCode ≠ 200) := fun h => h h2
          simp only [h2n, if_false]
          cases hd : (env.Decode (decoderInput c.debug resp.Body) st.result).1 with
          | error e => simp [(decoded_frame env c resp st).1]
          | ok ans =>
            obtain ⟨res, tag⟩ := ans
            cases tag with
            | none => simp [(decoded_frame env c resp st).1]
            | some t =>
              simp only []
              split_ifs <;> simp [(decoded_frame env c resp st).1]
        · simp [h2]

end Settle

end Ptool

namespace Ptool

section Final

variable {σ α ρ : Type}

theorem conflict_eq_none_of_encErr (x : Exchange) (e : GoError) (h : x.encErr = some e) :
    x.conflict = none := by
  unfold Exchange.conflict
  cases hr : x.resp <;> simp [h]

theorem conflict_eq_none_of_status (x : Exchange) (resp : HTTPResponse)
    (h : x.resp = .ok resp) (hs : resp.StatusCode ≠ 409) : x.conflict = none := by
  unfold Exchange.conflict
  cases he : x.encErr <;> simp [h, hs]

theorem conflict_eq_none_of_error (x : Exchange) (e : GoError) (h : x.resp = .error e) :
    x.conflict = none := by
  unfold Exchange.conflict
  simp [h]

/-- An exchange of a call that does not ask for the retry is the last one
of the call, and the call returns what settling it returns. The world `s` it
is settled in has the caller's slot untouched and the token that the request
of the exchange carried. -/
theorem rpcCall_settles (env : Env α ρ) (c : Client σ) (method : String) (arguments : α)
    (st : State σ ρ) (x : Exchange)
    (hx : x ∈ exchanges st (rpcCall env c method arguments st))
    (hc : x.conflict = none) :
    ∃ s : State σ ρ, s.result = st.result ∧
      s.sessionID = x.req.Header.Get csrfHeader ∧
      ((exchanges st (rpcCall env c method arguments st)).head? = some x →
        s.sessionID = st.sessionID) ∧
      (exchanges st (rpcCall env c method arguments st)).getLast? = some x ∧
      rpcCall env c method arguments st = settle env c (fun s => ⟨none, s⟩) false x s := by
  rcases rpcCall_run env c method arguments st with h | h | h
  · rw [h.1] at hx
    cases hx
  · obtain ⟨httpC, _, _, _, hex, hr⟩ := h
    rw [hex] at hx ⊢
    simp only [List.mem_singleton] at hx
    subst hx
    refine ⟨_, (stateAfter_frame env c httpC method arguments st).1, ?_, ?_, rfl, hr⟩
    · rw [(stateAfter_frame env c httpC method arguments st).2.1,
        (exchangeOf_req env c httpC method arguments st).1]
    · intro _
      exact (stateAfter_frame env c httpC method arguments st).2.1
  · obtain ⟨httpC, resp, _, _, hcf, hex, hr⟩ := h
    rw [hex] at hx ⊢
    simp only [List.mem_cons, List.mem_singleton, List.not_mem_nil, or_false] at hx
    rcases hx with hx | hx
    · subst hx
      rw [hcf] at hc
      cases hc
    · subst hx
      refine ⟨_, ?_, ?_, ?_, rfl, hr⟩
      · rw [(stateAfter_frame env c httpC method arguments _).1]
        exact (stateAfter_frame env c httpC method arguments st).1
      · rw [(stateAfter_frame env c httpC method arguments _).2.1,
          (exchangeOf_req env c httpC method arguments _).1]
      · intro hh
        simp only [List.head?_cons, Option.some.injEq] at hh
        rw [hh] at hcf
        rw [hcf] at hc
        cases hc

/-- The encoder's error of an exchange of a call is the marshalling error of
the payload when marshalling fails. -/
theorem encErr_of_mem (env : Env α ρ) (c : Client σ) (method : String) (arguments : α)
    (st : State σ ρ) (x : Exchange) (e : GoError)
    (hx : x ∈ exchanges st (rpcCall env c method arguments st))
    (he : env.Encode { Method := method, Arguments := arguments, Tag := x.tag }
      = .error e) :
    x.encErr = some e := by
  have key : ∀ (httpC : σ → HTTPRequest → Outcome × σ) (s : State σ ρ),
      x = exchangeOf env c httpC method arguments s → x.encErr = some e := by
    intro httpC s hxs
    have ht : x.tag = c.rnd s.draws := by rw [hxs]; rfl
    rw [ht] at he
    rw [hxs]
    unfold exchangeOf
    simp only [he]
  rcases rpcCall_run env c method arguments st with h | h | h
  · rw [h.1] at hx
    cases hx
  · obtain ⟨httpC, _, _, _, hex, _⟩ := h
    rw [hex] at hx
    simp only [List.mem_singleton] at hx
    exact key httpC _ hx
  · obtain ⟨httpC, resp, _, _, _, hex, _⟩ := h
    rw [hex] at hx
    simp only [List.mem_cons, List.mem_singleton, List.not_mem_nil, or_false] at hx
    rcases hx with hx | hx
    · exact key httpC _ hx
    · exact key httpC _ hx

end Final

end Ptool

namespace Ptool

section Success

variable {σ α ρ : Type}

/-- Settling an exchange without retry returns no error exactly when the
encoder reported none, the status is 200, the body decodes and the envelope
has the tag of the request and the result "success". -/
theorem settle_last_ok_iff (env : Env α ρ) (c : Client σ) (again : State σ ρ → Ret σ ρ)
    (x : Exchange) (st : State σ ρ) :
    (settle env c again false x st).err = none ↔
      x.encErr = none ∧ ∃ (resp : HTTPResponse) (ans : answerPayload),
        x.resp = .ok resp ∧ resp.StatusCode = 200 ∧
        (env.Decode (decoderInput c.debug resp.Body) st.result).1 = .ok ans ∧
        ans.Tag = some x.tag ∧ ans.Result = "success" := by
  rw [(settle_last_err env c again x st).1]
  cases hr : x.resp with
  | error e => cases he : x.encErr <;> simp
  | ok resp =>
    cases he : x.encErr with
    | some e => simp
    | none =>
      by_cases h9 : resp.StatusCode = 409
      · simp [h9]
      · by_cases h2 : resp.StatusCode = 200
        · cases hd : (env.Decode (decoderInput c.debug resp.Body) st.result).1 with
          | error e => simp [h2, hd]
          | ok ans =>
            obtain ⟨res, tag⟩ := ans
            cases tag with
            | none => simp [h2, hd]
            | some t =>
              by_cases ht : t = x.tag
              · by_cases hres : res = "success"
                · simp [h2, hd, ht, hres]
                · simp [h2, hd, ht, hres]
              · simp [h2, hd, ht]
        · simp [h9, h2]

end Success

end Ptool

namespace Ptool

section SuccessCore

variable {σ α ρ : Type}

/-- The success criterion for a call whose exchanges are `xs`, whose last
exchange `x` is settled without retry in a world with the caller's slot
untouched, and whose earlier exchanges had no encoder error. -/
theorem settle_last_success (env : Env α ρ) (c : Client σ)
    (again : State σ ρ → Ret σ ρ) (x : Exchange) (s : State σ ρ) (slot : ρ)
    (xs : List Exchange) (hres : s.result = slot) (hc : c.httpC ≠ none)
    (hl : xs.getLast? = some x) (hpre : ∀ y ∈ xs, y ≠ x → y.encErr = none) :
    ((settle env c again false x s).err = none ↔
      c.httpC ≠ none ∧ (∀ y ∈ xs, y.encErr = none) ∧
      ∃ (z : Exchange) (resp : HTTPResponse) (ans : answerPayload),
        xs.getLast? = some z ∧ z.resp = .ok resp ∧ resp.StatusCode = 200 ∧
        (env.Decode (decoderInput c.debug resp.Body) slot).1 = .ok ans ∧
        ans.Tag = some z.tag ∧ ans.Result = "success") ∧
    ((settle env c again false x s).err = none →
      ∀ (z : Exchange) (resp : HTTPResponse), xs.getLast? = some z → z.resp = .ok resp →
        (settle env c again false x s).st.result
          = (env.Decode (decoderInput c.debug resp.Body) slot).2) := by
  rw [settle_last_ok_iff, hres]
  constructor
  · constructor
    · rintro ⟨he, resp, ans, h1, h2, h3, h4, h5⟩
      refine ⟨hc, ?_, x, resp, ans, hl, h1, h2, h3, h4, h5⟩
      intro y hy
      by_cases hyx : y = x
      · rw [hyx]; exact he
      · exact hpre y hy hyx
    · rintro ⟨_, hall, z, resp, ans, hz, h1, h2, h3, h4, h5⟩
      rw [hl] at hz
      cases hz
      exact ⟨hall x (List.mem_of_mem_getLast? hl), resp, ans, h1, h2, h3, h4, h5⟩
  · rintro ⟨he, resp, ans, h1, h2, _, _, _⟩ z resp2 hz hzr
    rw [hl] at hz
    cases hz
    rw [h1] at hzr
    cases hzr
    rw [(settle_last_err env c again x s).2, h1, he, hres]
    simp [h2]

end SuccessCore

end Ptool

namespace Ptool

section Recursion

variable {σ α ρ : Type}

/-- With `retry = false` the body never makes the recursive call. -/
theorem requestBody_last (env : Env α ρ) (c : Client σ) (method : String) (arguments : α)
    (again : State σ ρ → Ret σ ρ) (st : State σ ρ) :
    requestBody env c method arguments again false st
      = requestLast env c method arguments st := by
  unfold requestLast
  cases hc : c.httpC with
  | none =>
    rw [requestBody_uninitialized env c method arguments again false st hc,
      requestBody_uninitialized env c method arguments _ false st hc]
  | some httpC =>
    cases hn : env.NewRequest c.url with
    | some err =>
      rw [requestBody_unprepared env c method arguments again false st httpC hc err hn,
        requestBody_unprepared env c method arguments _ false st httpC hc err hn]
    | none =>
      rw [requestBody_eq env c method arguments again false st httpC hc hn,
        requestBody_eq env c method arguments _ false st httpC hc hn]
      cases hx : (exchangeOf env c httpC method arguments st).conflict with
      | none => exact (settle_no_conflict env c again false _ _ hx).1
      | some resp =>
        rw [settle_conflict env c again false _ _ resp hx,
          settle_conflict env c _ false _ _ resp hx]
        simp

/-- The model `request` satisfies the recursive equation of
`Client.request`: its body, with the call of line 91 being `request` itself
with `retry = false`. -/
theorem request_unfold (env : Env α ρ) (c : Client σ) (method : String) (arguments : α)
    (retry : Bool) (st : State σ ρ) :
    request env c method arguments retry st
      = requestBody env c method arguments (request env c method arguments false)
          retry st := by
  have h : request env c method arguments false = requestLast env c method arguments := by
    funext s
    exact requestBody_last env c method arguments _ s
  rw [h]
  rfl

end Recursion

end Ptool

namespace Ptool

section Shapes

variable {σ α ρ : Type}

/-- A call on an initialized client whose request can be prepared and whose
first exchange does not ask for the retry. -/
theorem rpcCall_single (env : Env α ρ) (c : Client σ) (method : String) (arguments : α)
    (st : State σ ρ) (httpC : σ → HTTPRequest → Outcome × σ) (hc : c.httpC = some httpC)
    (hn : env.NewRequest c.url = none)
    (hx : (exchangeOf env c httpC method arguments st).conflict = none) :
    exchanges st (rpcCall env c method arguments st)
      = [exchangeOf env c httpC method arguments st] ∧
    rpcCall env c method arguments st
      = settle env c (fun s => ⟨none, s⟩) false
          (exchangeOf env c httpC method arguments st)
          (stateAfter env c httpC method arguments st) := by
  rcases rpcCall_run env c method arguments st with h | h | h
  · rcases h.2.2.2 with h1 | h1
    · rw [hc] at h1; cases h1
    · exact absurd hn h1
  · obtain ⟨httpC1, hc1, _, _, hex, hr⟩ := h
    rw [hc] at hc1
    cases hc1
    exact ⟨hex, hr⟩
  · obtain ⟨httpC1, resp, hc1, _, hcf, _, _⟩ := h
    rw [hc] at hc1
    cases hc1
    rw [hx] at hcf
    cases hcf

/-- A call on an initialized client whose request can be prepared and whose
first exchange asks for the retry. -/
theorem rpcCall_retry (env : Env α ρ) (c : Client σ) (method : String) (arguments : α)
    (st : State σ ρ) (httpC : σ → HTTPRequest → Outcome × σ) (hc : c.httpC = some httpC)
    (hn : env.NewRequest c.url = none) (resp : HTTPResponse)
    (hx : (exchangeOf env c httpC method arguments st).conflict = some resp) :
    exchanges st (rpcCall env c method arguments st)
      = [exchangeOf env c httpC method arguments st,
         exchangeOf env c httpC method arguments
          (updateSessionID (stateAfter env c httpC method arguments st)
            (resp.Header.Get csrfHeader))] ∧
    rpcCall env c method arguments st
      = settle env c (fun s => ⟨none, s⟩) false
          (exchangeOf env c httpC method arguments
            (updateSessionID (stateAfter env c httpC method arguments st)
              (resp.Header.Get csrfHeader)))
          (stateAfter env c httpC method arguments
            (updateSessionID (stateAfter env c httpC method arguments st)
              (resp.Header.Get csrfHeader))) := by
  rcases rpcCall_run env c method arguments st with h | h | h
  · rcases h.2.2.2 with h1 | h1
    · rw [hc] at h1; cases h1
    · exact absurd hn h1
  · obtain ⟨httpC1, hc1, _, hcf, _, _⟩ := h
    rw [hc] at hc1
    cases hc1
    rw [hx] at hcf
    cases hcf
  · obtain ⟨httpC1, resp1, hc1, _, hcf, hex, hr⟩ := h
    rw [hc] at hc1
    cases hc1
    rw [hx] at hcf
    cases hcf
    exact ⟨hex, hr⟩

/-- A call of `request` with `retry = false` on an initialized client whose
request can be prepared. -/
theorem request_last (env : Env α ρ) (c : Client σ) (method : String) (arguments : α)
    (st : State σ ρ) (httpC : σ → HTTPRequest → Outcome × σ) (hc : c.httpC = some httpC)
    (hn : env.NewRequest c.url = none) :
    exchanges st (request env c method arguments false st)
      = [exchangeOf env c httpC method arguments st] ∧
    request env c method arguments false st
      = settle env c (fun s => ⟨none, s⟩) false
          (exchangeOf env c httpC method arguments st)
          (stateAfter env c httpC method arguments st) := by
  have hr : request env c method arguments false st
      = settle env c (fun s => ⟨none, s⟩) false
          (exchangeOf env c httpC method arguments st)
          (stateAfter env c httpC method arguments st) := by
    unfold request
    rw [requestBody_last]
    unfold requestLast
    exact requestBody_eq env c method arguments _ false st httpC hc hn
  refine ⟨?_, hr⟩
  apply exchanges_of_log
  rw [hr, (settle_last_frame env c _ _ _).1,
    (stateAfter_frame env c httpC method arguments st).2.2.1]

end Shapes

end Ptool

namespace Ptool

section Debug

variable {σ α ρ : Type}

/-- A body that can be read completely reaches the decoder unchanged, with
or without the debug flag. -/
theorem decoderInput_complete (debug : Bool) (b : Body) (h : b.err = none) :
    decoderInput debug b = b := by
  unfold decoderInput
  cases debug
  · rfl
  · obtain ⟨data, err⟩ := b
    simp only at h
    subst h
    rfl

/-- Settling an exchange whose body can be read completely gives the same
error, slot and token for two clients that differ in the debug flag only. -/
theorem settle_last_debug (env : Env α ρ) (c : Client σ)
    (again again2 : State σ ρ → Ret σ ρ) (x : Exchange) (st : State σ ρ)
    (hx : ∀ r : HTTPResponse, x.resp = .ok r → r.Body.err = none) :
    (settle env { c with debug := true } again false x st).err
      = (settle env { c with debug := false } again2 false x st).err ∧
    (settle env { c with debug := true } again false x st).st.result
      = (settle env { c with debug := false } again2 false x st).st.result ∧
    (settle env { c with debug := true } again false x st).st.sessionID
      = (settle env { c with debug := false } again2 false x st).st.sessionID := by
  refine ⟨?_, ?_, ?_⟩
  · rw [(settle_last_err env _ again x st).1, (settle_last_err env _ again2 x st).1]
    cases hr : x.resp with
    | error e => cases x.encErr <;> rfl
    | ok resp =>
      cases x.encErr with
      | some e => rfl
      | none =>
        simp only []
        rw [decoderInput_complete true _ (hx resp hr),
          decoderInput_complete false _ (hx resp hr)]
  · rw [(settle_last_err env _ again x st).2, (settle_last_err env _ again2 x st).2]
    cases hr : x.resp with
    | error e => cases x.encErr <;> rfl
    | ok resp =>
      cases x.encErr with
      | some e => rfl
      | none =>
        simp only []
        rw [decoderInput_complete true _ (hx resp hr),
          decoderInput_complete false _ (hx resp hr)]
  · rw [(settle_last_frame env _ again x st).2, (settle_last_frame env _ again2 x st).2]

end Debug

end Ptool

namespace Ptool

section LastError

variable {σ α ρ : Type}

theorem settle_last_lastError (env : Env α ρ) (c : Client σ)
    (again : State σ ρ → Ret σ ρ) (x : Exchange) (st : State σ ρ) :
    (settle env c again false x st).err = lastError env c.debug x st.result :=
  (settle_last_err env c again x st).1

/-- On an initialized client whose request can be prepared, the call has a
last exchange, its error is `lastError` of that exchange, and its slot is
the caller's unless that exchange was decoded. -/
theorem rpcCall_lastError (env : Env α ρ) (c : Client σ) (method : String)
    (arguments : α) (st : State σ ρ) (httpC : σ → HTTPRequest → Outcome × σ)
    (hc : c.httpC = some httpC) (hn : env.NewRequest c.url = none) :
    ∃ x : Exchange,
      (exchanges st (rpcCall env c method arguments st)).getLast? = some x ∧
      (rpcCall env c method arguments st).err = lastError env c.debug x st.result := by
  cases hx : (exchangeOf env c httpC method arguments st).conflict with
  | none =>
    obtain ⟨hex, hr⟩ := rpcCall_single env c method arguments st httpC hc hn hx
    refine ⟨exchangeOf env c httpC method arguments st, by rw [hex]; rfl, ?_⟩
    rw [hr, settle_last_lastError, (stateAfter_frame env c httpC method arguments st).1]
  | some resp =>
    obtain ⟨hex, hr⟩ := rpcCall_retry env c method arguments st httpC hc hn resp hx
    refine ⟨exchangeOf env c httpC method arguments
      (updateSessionID (stateAfter env c httpC method arguments st)
        (resp.Header.Get csrfHeader)), by rw [hex]; rfl, ?_⟩
    rw [hr, settle_last_lastError, (stateAfter_frame env c httpC method arguments _).1]
    exact congrArg _ (stateAfter_frame env c httpC method arguments st).1

/-- A call in which an exchange asks for the retry has two exchanges. -/
theorem rpcCall_two_of_conflict (env : Env α ρ) (c : Client σ) (method : String)
    (arguments : α) (st : State σ ρ) (x : Exchange) (resp : HTTPResponse)
    (hx : x ∈ exchanges st (rpcCall env c method arguments st))
    (hcf : x.conflict = some resp) :
    (exchanges st (rpcCall env c method arguments st)).length = 2 := by
  rcases rpcCall_run env c method arguments st with h | h | h
  · rw [h.1] at hx
    cases hx
  · obtain ⟨httpC, _, _, hno, hex, _⟩ := h
    rw [hex] at hx
    simp only [List.mem_singleton] at hx
    rw [hx, hno] at hcf
    cases hcf
  · obtain ⟨httpC, resp1, _, _, _, hex, _⟩ := h
    rw [hex]
    rfl

/-- When the last exchange of a call asks for the retry, the call returns
the repeated-token error and leaves the caller's slot as it was. -/
theorem rpcCall_last_conflict (env : Env α ρ) (c : Client σ) (method : String)
    (arguments : α) (st : State σ ρ) (x : Exchange) (resp : HTTPResponse)
    (hl : (exchanges st (rpcCall env c method arguments st)).getLast? = some x)
    (hcf : x.conflict = some resp) :
    (rpcCall env c method arguments st).err = some (.errorString
      "CSRF token invalid 2 times in a row: stopping to avoid infinite loop") ∧
    (rpcCall env c method arguments st).st.result = st.result := by
  have h3 := (conflict_eq_some x resp).1 hcf
  rcases rpcCall_run env c method arguments st with h | h | h
  · rw [h.1] at hl
    cases hl
  · obtain ⟨httpC, _, _, hno, hex, _⟩ := h
    rw [hex] at hl
    simp only [List.getLast?_singleton, Option.some.injEq] at hl
    rw [← hl, hno] at hcf
    cases hcf
  · obtain ⟨httpC, resp1, _, _, _, hex, hr⟩ := h
    rw [hex] at hl
    simp only [List.getLast?_cons_cons, List.getLast?_singleton, Option.some.injEq] at hl
    have hres0 : (stateAfter env c httpC method arguments
        (updateSessionID (stateAfter env c httpC method arguments st)
          (resp1.Header.Get csrfHeader))).result = st.result := by
      rw [(stateAfter_frame env c httpC method arguments _).1]
      exact (stateAfter_frame env c httpC method arguments st).1
    constructor
    · rw [hr, (settle_last_err env c _ _ _).1, hl, h3.2.1, h3.1]
      simp [h3.2.2]
    · rw [hr, (settle_last_err env c _ _ _).2, hl, h3.2.1, h3.1, hres0]
      simp [h3.2.2]

end LastError

end Ptool

namespace Ptool

/-- Appending a non-empty string gives a non-empty string. -/
theorem append_ne_empty (a b : String) (hb : b ≠ "") : a ++ b ≠ "" := by
  intro h
  apply hb
  have h1 : (a ++ b).data = [] := by rw [h]
  rw [String.data_append] at h1
  exact String.ext (List.append_eq_nil.1 h1).2

/-- The loop of `FormatDuration` over four strings concatenates the first
two that are not empty. -/
theorem FormatDuration.loop_eq (a b c d : String) :
    FormatDuration.loop [a, b, c, d] "" 0
      = String.join (([a, b, c, d].filter (fun s => s ≠ "")).take 2) := by
  by_cases ha : a = "" <;> by_cases hb : b = "" <;> by_cases hc : c = "" <;>
    by_cases hd : d = "" <;>
    simp [FormatDuration.loop, ha, hb, hc, hd, String.join, List.filter]

/-- Rendering the non-zero components is the same as dropping the empty
strings among the four strings of `FormatDuration`. -/
theorem render_filter (d h m s : Int) (hd : 0 ≤ d) (hh : 0 ≤ h) (hm : 0 ≤ m) (hs : 0 ≤ s) :
    [if d > 0 then toString d ++ "d" else "", if h > 0 then toString h ++ "h" else "",
      if m > 0 then toString m ++ "m" else "",
      if s > 0 then toString s ++ "s" else ""].filter (fun x => x ≠ "")
    = ([(d, "d"), (h, "h"), (m, "m"), (s, "s")].filter (fun p => p.1 ≠ 0)).map
        (fun p => toString p.1 ++ p.2) := by
  have key : ∀ (n : Int) (u : String), 0 ≤ n → u ≠ "" →
      ((n > 0 ∧ n ≠ 0 ∧ (if n > 0 then toString n ++ u else "") = toString n ++ u ∧
          toString n ++ u ≠ "") ∨
       (n = 0 ∧ (if n > 0 then toString n ++ u else "") = "")) := by
    intro n u hn hu
    rcases lt_or_eq_of_le hn with h1 | h1
    · left
      exact ⟨h1, ne_of_gt h1, by simp [h1], append_ne_empty _ _ hu⟩
    · right
      subst h1
      exact ⟨rfl, by simp⟩
  rcases key d "d" hd (by decide) with ⟨_, d0, d1, d2⟩ | ⟨d0, d1⟩ <;>
  rcases key h "h" hh (by decide) with ⟨_, h0, h1, h2⟩ | ⟨h0, h1⟩ <;>
  rcases key m "m" hm (by decide) with ⟨_, m0, m1, m2⟩ | ⟨m0, m1⟩ <;>
  rcases key s "s" hs (by decide) with ⟨_, s0, s1, s2⟩ | ⟨s0, s1⟩ <;>
  · rw [d1, h1, m1, s1]
    simp [List.filter, *]

end Ptool

namespace Ptool

/-- Go's quotient and remainder of a non-positive number by a positive one
are non-positive. -/
theorem tdiv_tmod_nonpos (a b : Int) (ha : a ≤ 0) (hb : 0 < b) :
    a.tdiv b ≤ 0 ∧ a.tmod b ≤ 0 := by
  obtain ⟨n, rfl⟩ := Int.exists_eq_neg_ofNat ha
  have h1 := Int.tdiv_nonneg (Int.ofNat_nonneg n) (le_of_lt hb)
  have h2 := Int.tmod_nonneg b (Int.ofNat_nonneg n)
  have h3 := Int.tdiv_add_tmod (-(n : Int)) b
  have h4 := Int.tdiv_add_tmod (n : Int) b
  rw [Int.neg_tdiv] at h3 ⊢
  rw [mul_neg] at h3
  constructor
  · linarith
  · linarith

end Ptool

namespace Ptool

section Digits

/-- A property of the ten digit characters holds of every character that
`pad2` and `pad4` produce. -/
theorem digitChar_mod (P : Char → Prop)
    (hP : P '0' ∧ P '1' ∧ P '2' ∧ P '3' ∧ P '4' ∧ P '5' ∧ P '6' ∧ P '7' ∧ P '8' ∧ P '9')
    (k : Nat) : P (Nat.digitChar (k % 10)) := by
  have h : k % 10 < 10 := Nat.mod_lt _ (by decide)
  obtain ⟨h0, h1, h2, h3, h4, h5, h6, h7, h8, h9⟩ := hP
  generalize k % 10 = j at h
  interval_cases j
  · exact h0
  · exact h1
  · exact h2
  · exact h3
  · exact h4
  · exact h5
  · exact h6
  · exact h7
  · exact h8
  · exact h9

theorem isDigit_digitChar (k : Nat) : isDigit (Nat.digitChar (k % 10)) = true :=
  digitChar_mod (fun c => isDigit c = true) (by decide) k

theorem isUnicodeSpace_digitChar (k : Nat) :
    isUnicodeSpace (Nat.digitChar (k % 10)) = false :=
  digitChar_mod (fun c => isUnicodeSpace c = false) (by decide) k

theorem digitChar_ne_minus (k : Nat) : Nat.digitChar (k % 10) ≠ '-' :=
  digitChar_mod (fun c => c ≠ '-') (by decide) k

theorem digitChar_ne_plus (k : Nat) : Nat.digitChar (k % 10) ≠ '+' :=
  digitChar_mod (fun c => c ≠ '+') (by decide) k

/-- On digits the loop of `Atoi` computes the decimal value. -/
theorem atoiDigits_foldl (digits : List Char) (h : ∀ ch ∈ digits, isDigit ch = true)
    (n : Nat) :
    atoiDigits digits n
      = some (digits.foldl (fun n ch => n * 10 + (ch.toNat - '0'.toNat)) n) := by
  induction digits generalizing n with
  | nil => rfl
  | cons ch s ih =>
    have hch : isDigit ch = true := h ch (List.mem_cons_self _ _)
    simp only [atoiDigits, hch, if_true, List.foldl_cons]
    exact ih (fun c hc => h c (List.mem_cons_of_mem _ hc)) _

theorem atoiDigits_eq (digits : List Char) (h : ∀ ch ∈ digits, isDigit ch = true) :
    atoiDigits digits 0 = some (decimalValue digits) :=
  atoiDigits_foldl digits h 0

theorem pow_IntSize : (2 : Nat) ^ (IntSize - 1) = 9223372036854775808 := by
  norm_num [IntSize]

/-- A digit is neither of the two signs. -/
theorem isDigit_not_sign (ch : Char) (h : isDigit ch = true) : ch ≠ '-' ∧ ch ≠ '+' := by
  constructor
  · intro h1
    rw [h1] at h
    revert h
    decide
  · intro h1
    rw [h1] at h
    revert h
    decide

/-- `Atoi` on digits without a sign. -/
theorem Atoi_unsigned (digits : List Char) (hne : digits ≠ [])
    (hdig : ∀ ch ∈ digits, isDigit ch = true)
    (hv : decimalValue digits ≤ 9223372036854775807) :
    Atoi (String.mk digits) = ((decimalValue digits : Int), none) := by
  obtain ⟨d0, rest, hd0⟩ : ∃ d0 rest, digits = d0 :: rest := by
    cases digits with
    | nil => exact absurd rfl hne
    | cons a t => exact ⟨a, t, rfl⟩
  have hs := isDigit_not_sign d0 (hdig d0 (by rw [hd0]; exact List.mem_cons_self _ _))
  have hhead : (String.mk digits).data.head? = some d0 := by rw [hd0]; rfl
  have hv2 : ¬ (decimalValue digits > 9223372036854775808 - 1) := by omega
  unfold Atoi
  simp only [hhead, Option.some.injEq, hs.1, hs.2, or_self, if_false, decide_False,
    hne, atoiDigits_eq digits hdig, pow_IntSize, hv2, Bool.false_eq_true]

/-- `Atoi` on digits after a plus sign. -/
theorem Atoi_plus (digits : List Char) (hne : digits ≠ [])
    (hdig : ∀ ch ∈ digits, isDigit ch = true)
    (hv : decimalValue digits ≤ 9223372036854775807) :
    Atoi (String.mk ('+' :: digits)) = ((decimalValue digits : Int), none) := by
  have hv2 : ¬ (decimalValue digits > 9223372036854775808 - 1) := by omega
  have hm : ¬ ('+' = '-') := by decide
  unfold Atoi
  simp only [List.head?_cons, Option.some.injEq, hm, false_or, if_true, List.tail_cons,
    decide_False, hne, if_false, atoiDigits_eq digits hdig, pow_IntSize, hv2,
    Bool.false_eq_true]

/-- `Atoi` on digits after a minus sign. -/
theorem Atoi_minus (digits : List Char) (hne : digits ≠ [])
    (hdig : ∀ ch ∈ digits, isDigit ch = true)
    (hv : decimalValue digits ≤ 9223372036854775808) :
    Atoi (String.mk ('-' :: digits)) = (-(decimalValue digits : Int), none) := by
  have hv2 : ¬ (decimalValue digits > 9223372036854775808) := by omega
  unfold Atoi
  simp only [List.head?_cons, true_or, if_true, List.tail_cons, decide_True, hne,
    if_false, atoiDigits_eq digits hdig, pow_IntSize, hv2]

end Digits

section Trim

/-- Dropping a prefix that satisfies `p` in front of a list whose head does
not. -/
theorem dropWhile_pad (p : Char → Bool) (pre core : List Char)
    (hpre : ∀ ch ∈ pre, p ch = true)
    (hcore : ∀ a, core.head? = some a → p a = false) :
    (pre ++ core).dropWhile p = core := by
  induction pre with
  | nil =>
    cases core with
    | nil => rfl
    | cons a t =>
      have := hcore a rfl
      simp [List.dropWhile, this]
  | cons a t ih =>
    have ha := hpre a (List.mem_cons_self _ _)
    simp only [List.cons_append, List.dropWhile, ha]
    exact ih (fun c hc => hpre c (List.mem_cons_of_mem _ hc))

/-- Dropping a suffix that satisfies `p` behind a list whose last element
does not. -/
theorem rdropWhile_pad (p : Char → Bool) (core post : List Char)
    (hpost : ∀ ch ∈ post, p ch = true)
    (hcore : ∀ a, core.getLast? = some a → p a = false) :
    (core ++ post).rdropWhile p = core := by
  unfold List.rdropWhile
  rw [List.reverse_append,
    dropWhile_pad p post.reverse core.reverse
      (fun c hc => hpost c (List.mem_reverse.1 hc))
      (fun a ha => hcore a (by rw [← ha, List.head?_reverse]))]
  exact List.reverse_reverse _

/-- Trimming a string that is white space, then a core that neither starts
nor ends with white space, then white space, gives the core. -/
theorem TrimSpace_pad (pre core post : List Char) (hne : core ≠ [])
    (hpre : ∀ ch ∈ pre, isUnicodeSpace ch = true)
    (hpost : ∀ ch ∈ post, isUnicodeSpace ch = true)
    (hhead : ∀ a, core.head? = some a → isUnicodeSpace a = false)
    (hlast : ∀ a, core.getLast? = some a → isUnicodeSpace a = false) :
    TrimSpace (String.mk (pre ++ core ++ post)) = String.mk core := by
  unfold TrimSpace
  simp only [List.append_assoc]
  rw [dropWhile_pad isUnicodeSpace pre (core ++ post) hpre, rdropWhile_pad _ _ _ hpost hlast]
  intro a ha
  cases core with
  | nil => exact absurd rfl hne
  | cons b t => exact hhead a ha

/-- Trimming a string of white space gives the empty string. -/
theorem TrimSpace_blank (s : String) (h : ∀ ch ∈ s.data, isUnicodeSpace ch = true) :
    TrimSpace s = "" := by
  unfold TrimSpace
  have h1 : s.data.dropWhile isUnicodeSpace = [] := by
    rw [List.dropWhile_eq_nil_iff]
    exact h
  rw [h1]
  rfl

end Trim

end Ptool

namespace Ptool

section Layouts

variable {L : Type}

theorem compact_match (dt : DateTime) : matchCompactLayout dt.compact.data = true := by
  simp [DateTime.compact, pad2, pad4, matchCompactLayout, takeDigits, takeChar,
    isDigit_digitChar]

theorem spaced_no_match (dt : DateTime) : matchCompactLayout dt.spaced.data = false := by
  have h : isDigit ' ' = false := by decide
  simp [DateTime.spaced, pad2, pad4, matchCompactLayout, takeDigits, takeChar,
    isDigit_digitChar, h]

theorem spaced_no_date (dt : DateTime) : matchDateLayout dt.spaced.data = false := by
  simp [DateTime.spaced, pad2, pad4, matchDateLayout, takeDigits, takeChar,
    isDigit_digitChar]

/-- The slice expression `str[:10] + " " + str[10:]` turns the compact
layout into the spaced one. -/
theorem compact_split (dt : DateTime) :
    String.mk (dt.compact.data.take 10 ++ " ".data ++ dt.compact.data.drop 10)
      = dt.spaced := by
  simp [DateTime.compact, DateTime.spaced, pad2, pad4]

theorem compact_not_integer (dt : DateTime) : (Atoi dt.compact).2 ≠ none := by
  have h : isDigit '-' = false := by decide
  simp [Atoi, DateTime.compact, pad2, pad4, atoiDigits, isDigit_digitChar,
    digitChar_ne_minus, digitChar_ne_plus, h]

theorem spaced_not_integer (dt : DateTime) : (Atoi dt.spaced).2 ≠ none := by
  have h : isDigit '-' = false := by decide
  simp [Atoi, DateTime.spaced, pad2, pad4, atoiDigits, isDigit_digitChar,
    digitChar_ne_minus, digitChar_ne_plus, h]

/-- Surrounding white space is trimmed off the compact layout. -/
theorem TrimSpace_compact (dt : DateTime) (pre post : List Char)
    (hpre : ∀ ch ∈ pre, isUnicodeSpace ch = true)
    (hpost : ∀ ch ∈ post, isUnicodeSpace ch = true) :
    TrimSpace (String.mk (pre ++ dt.compact.data ++ post)) = dt.compact := by
  apply TrimSpace_pad pre dt.compact.data post _ hpre hpost
  · intro a ha
    simp only [DateTime.compact, pad4, List.cons_append, List.head?_cons,
      Option.some.injEq] at ha
    rw [← ha]
    exact isUnicodeSpace_digitChar _
  · intro a ha
    simp only [DateTime.compact, pad2, pad4, List.cons_append, List.nil_append,
      List.getLast?_cons_cons, List.getLast?_singleton, Option.some.injEq] at ha
    rw [← ha]
    exact isUnicodeSpace_digitChar _
  · simp [DateTime.compact, pad4]

/-- Surrounding white space is trimmed off the spaced layout. -/
theorem TrimSpace_spaced (dt : DateTime) (pre post : List Char)
    (hpre : ∀ ch ∈ pre, isUnicodeSpace ch = true)
    (hpost : ∀ ch ∈ post, isUnicodeSpace ch = true) :
    TrimSpace (String.mk (pre ++ dt.spaced.data ++ post)) = dt.spaced := by
  apply TrimSpace_pad pre dt.spaced.data post _ hpre hpost
  · intro a ha
    simp only [DateTime.spaced, pad4, List.cons_append, List.head?_cons,
      Option.some.injEq] at ha
    rw [← ha]
    exact isUnicodeSpace_digitChar _
  · intro a ha
    simp only [DateTime.spaced, pad2, pad4, List.cons_append, List.nil_append,
      List.getLast?_cons_cons, List.getLast?_singleton, Option.some.injEq] at ha
    rw [← ha]
    exact isUnicodeSpace_digitChar _
  · simp [DateTime.spaced, pad4]

/-- On the compact layout, surrounded by white space, `ParseTimeWithNow`
inserts the space and goes on with the spaced layout. -/
theorem ParseTimeWithNow_compact (env : TimeEnv L) (dt : DateTime) (pre post : List Char)
    (hpre : ∀ ch ∈ pre, isUnicodeSpace ch = true)
    (hpost : ∀ ch ∈ post, isUnicodeSpace ch = true) (location : Option L) (now : Int) :
    ParseTimeWithNow env (String.mk (pre ++ dt.compact.data ++ post)) location now
      = parseLayoutOrDuration env dt.spaced location now := by
  have hne : dt.compact ≠ "" := by
    intro h
    have := compact_match dt
    rw [h] at this
    revert this
    decide
  unfold ParseTimeWithNow
  simp only [TrimSpace_compact dt pre post hpre hpost, hne, if_false,
    compact_not_integer dt, compact_match dt, if_true, compact_split dt,
    spaced_no_date dt, Bool.false_eq_true]
  rfl

/-- On the spaced layout, surrounded by white space, `ParseTimeWithNow`
goes on with that layout. -/
theorem ParseTimeWithNow_spaced (env : TimeEnv L) (dt : DateTime) (pre post : List Char)
    (hpre : ∀ ch ∈ pre, isUnicodeSpace ch = true)
    (hpost : ∀ ch ∈ post, isUnicodeSpace ch = true) (location : Option L) (now : Int) :
    ParseTimeWithNow env (String.mk (pre ++ dt.spaced.data ++ post)) location now
      = parseLayoutOrDuration env dt.spaced location now := by
  have hne : dt.spaced ≠ "" := by
    intro h
    have hd : dt.spaced.data = [] := by rw [h]
    simp [DateTime.spaced, pad4] at hd
  unfold ParseTimeWithNow
  simp only [TrimSpace_spaced dt pre post hpre hpost, hne, if_false,
    spaced_not_integer dt, spaced_no_match dt, spaced_no_date dt, Bool.false_eq_true]
  rfl

end Layouts

end Ptool

/-! ## Claims about `Client.rpcCall` -/

namespace Ptool

section Claims

variable {σ α ρ : Type}

/-- C1: a call makes at most two HTTP exchanges; when the first and the
second exchange both answer with status 409 and the encoder reported no
error, the call returns the error "CSRF token invalid 2 times in a row:
stopping to avoid infinite loop" and there is no third exchange. -/
theorem rpcCall_at_most_two_exchanges (env : Env α ρ) (c : Client σ) (method : String)
    (arguments : α) (st : State σ ρ) :
    (exchanges st (rpcCall env c method arguments st)).length ≤ 2 ∧
    ∀ (x1 x2 : Exchange) (rest : List Exchange) (r1 r2 : HTTPResponse),
      exchanges st (rpcCall env c method arguments st) = x1 :: x2 :: rest →
      x1.encErr = none → x1.resp = .ok r1 → r1.StatusCode = 409 →
      x2.encErr = none → x2.resp = .ok r2 → r2.StatusCode = 409 →
      (rpcCall env c method arguments st).err = some (.errorString
        "CSRF token invalid 2 times in a row: stopping to avoid infinite loop") ∧
      rest = [] := by
  constructor
  · rcases rpcCall_run env c method arguments st with h | h | h
    · rw [h.1]; simp
    · obtain ⟨httpC, _, _, _, hex, _⟩ := h
      rw [hex]; simp
    · obtain ⟨httpC, resp, _, _, _, hex, _⟩ := h
      rw [hex]; simp
  · intro x1 x2 rest r1 r2 hxs _ _ _ he2 hr2 hs2
    have hmem : x2 ∈ exchanges st (rpcCall env c method arguments st) := by
      rw [hxs]; simp
    rcases rpcCall_run env c method arguments st with h | h | h
    · rw [h.1] at hxs
      cases hxs
    · obtain ⟨httpC, _, _, _, hex, _⟩ := h
      rw [hex] at hxs
      simp at hxs
    · obtain ⟨httpC, resp, _, _, _, hex, hr⟩ := h
      rw [hex] at hxs
      simp only [List.cons.injEq] at hxs
      obtain ⟨_, h2, hrest⟩ := hxs
      refine ⟨?_, hrest.symm⟩
      rw [hr, (settle_last_err env c _ _ _).1, h2, hr2, he2]
      simp [hs2]

/-- Witness of C1: a peer that answers 409 twice. -/
theorem rpcCall_at_most_two_exchanges_witness :
    (exchanges (world twoConflicts)
      (rpcCall sampleEnv sampleClient "session-get" () (world twoConflicts))).length ≤ 2 ∧
    (rpcCall sampleEnv sampleClient "session-get" () (world twoConflicts)).err
      = some (.errorString
        "CSRF token invalid 2 times in a row: stopping to avoid infinite loop") ∧
    (exchanges (world twoConflicts)
      (rpcCall sampleEnv sampleClient "session-get" () (world twoConflicts))).length = 2 :=
  ⟨(rpcCall_at_most_two_exchanges sampleEnv sampleClient "session-get" ()
      (world twoConflicts)).1,
   ((rpcCall_at_most_two_exchanges sampleEnv sampleClient "session-get" ()
      (world twoConflicts)).2 _ _ [] _ _ rfl rfl rfl rfl rfl rfl rfl).1,
   by decide⟩

/-- C2: when the first exchange answers 409 with session header `t` and the
encoder reported no error, there is a second exchange, the last of the call,
whose request carries `t` in `X-Transmission-Session-Id`; when that second
exchange answers 200 with an envelope that decodes, carries the tag of the
second request and has result "success", the call returns no error. -/
theorem rpcCall_retries_with_new_token (env : Env α ρ) (c : Client σ) (method : String)
    (arguments : α) (st : State σ ρ) (x1 : Exchange) (rest : List Exchange)
    (r1 : HTTPResponse)
    (hxs : exchanges st (rpcCall env c method arguments st) = x1 :: rest)
    (he1 : x1.encErr = none) (hr1 : x1.resp = .ok r1) (hs1 : r1.StatusCode = 409) :
    ∃ x2 : Exchange, rest = [x2] ∧
      x2.req.Header.Get csrfHeader = r1.Header.Get csrfHeader ∧
      ∀ (r2 : HTTPResponse) (ans : answerPayload),
        x2.encErr = none → x2.resp = .ok r2 → r2.StatusCode = 200 →
        (env.Decode (decoderInput c.debug r2.Body) st.result).1 = .ok ans →
        ans.Tag = some x2.tag → ans.Result = "success" →
        (rpcCall env c method arguments st).err = none := by
  have hcf : x1.conflict = some r1 := (conflict_eq_some x1 r1).2 ⟨he1, hr1, hs1⟩
  rcases rpcCall_run env c method arguments st with h | h | h
  · rw [h.1] at hxs
    cases hxs
  · obtain ⟨httpC, _, _, hno, hex, _⟩ := h
    rw [hex] at hxs
    simp only [List.cons.injEq] at hxs
    rw [hxs.1, hcf] at hno
    cases hno
  · obtain ⟨httpC, resp, _, _, hcf1, hex, hr⟩ := h
    rw [hex] at hxs
    simp only [List.cons.injEq] at hxs
    obtain ⟨hx1, hrest⟩ := hxs
    rw [hx1, hcf] at hcf1
    cases hcf1
    refine ⟨_, hrest.symm, ?_, ?_⟩
    · rw [(exchangeOf_req env c httpC method arguments _).1]
      rfl
    · intro r2 ans he2 hr2 hs2 hd ht hres
      have hres0 : (stateAfter env c httpC method arguments
          (updateSessionID (stateAfter env c httpC method arguments st)
            (r1.Header.Get csrfHeader))).result = st.result := by
        rw [(stateAfter_frame env c httpC method arguments _).1]
        exact (stateAfter_frame env c httpC method arguments st).1
      rw [hr, (settle_last_err env c _ _ _).1, hr2, he2, hres0]
      simp [hs2, hd, ht, hres]

/-- Witness of C2: 409 with token "abc123", then 200 with a success
envelope; the retry carries "abc123", not "old", and the call succeeds. -/
theorem rpcCall_retries_with_new_token_witness :
    (exchanges (world conflictThenSuccess)
      (rpcCall sampleEnv sampleClient "session-get" () (world conflictThenSuccess))).map
        (fun x => x.req.Header.Get csrfHeader) = ["old", "abc123"] ∧
    (rpcCall sampleEnv sampleClient "session-get" () (world conflictThenSuccess)).err
      = none := by
  obtain ⟨x2, h1, _, h3⟩ := rpcCall_retries_with_new_token sampleEnv sampleClient
    "session-get" () (world conflictThenSuccess)
    (exchangeOf sampleEnv sampleClient scripted "session-get" ()
      (world conflictThenSuccess))
    [exchangeOf sampleEnv sampleClient scripted "session-get" ()
      (updateSessionID (stateAfter sampleEnv sampleClient scripted "session-get" ()
        (world conflictThenSuccess)) "abc123")]
    ⟨409, [(csrfHeader, "abc123")], ⟨[], none⟩⟩ rfl rfl rfl rfl
  simp only [List.cons.injEq, and_true] at h1
  subst h1
  exact ⟨by decide, h3 ⟨200, [(csrfHeader, "abc123")], ⟨[1], none⟩⟩ ⟨"success", some 42⟩
    rfl rfl rfl rfl rfl rfl⟩

end Claims

end Ptool

namespace Ptool

section Claims

variable {σ α ρ : Type}

/-- C3, as the specification states it, fails: a response with status 500
whose body holds an envelope with tag 7, to a request with tag 42, makes the
call return `HTTPStatusCode(500)`, not the tag-mismatch error. The status is
tested before the body is decoded. -/
theorem tag_mismatch_depends_on_status :
    ¬ (∀ (env : Env Unit String) (c : Client (List (Except GoError HTTPResponse)))
        (method : String) (st : State (List (Except GoError HTTPResponse)) String)
        (x : Exchange) (resp : HTTPResponse) (ans : answerPayload) (t : Int),
        x ∈ exchanges st (rpcCall env c method () st) →
        x.encErr = none → x.resp = .ok resp →
        (env.Decode (decoderInput c.debug resp.Body) st.result).1 = .ok ans →
        ans.Tag = some t → t ≠ x.tag →
        (rpcCall env c method () st).err = some (.errorString
          "http request tag and answer payload tag do not match")) := by
  intro h
  have h1 := h sampleEnv sampleClient "session-get" (world errorWithForeignTag)
    (exchangeOf sampleEnv sampleClient scripted "session-get" ()
      (world errorWithForeignTag))
    ⟨500, [(csrfHeader, "old")], ⟨[2], none⟩⟩ ⟨"success", some 7⟩ 7
    (by simp [exchanges, rpcCall, request, requestBody, sampleClient, sampleEnv, world,
      errorWithForeignTag, answer, scripted, exchangeOf, requestOf, getSessionID])
    rfl rfl rfl rfl (by decide)
  have h2 : (rpcCall sampleEnv sampleClient "session-get" ()
      (world errorWithForeignTag)).err = some (.HTTPStatusCode 500) := by decide
  rw [h2] at h1
  cases h1

/-- C3, amended: for an exchange of a call in which the encoder reported no
error and a response arrived. When the response has status 200 and its body
decodes to an envelope that carries a tag different from the tag of the
request, the call returns the error "http request tag and answer payload tag
do not match", whatever the result field of the envelope. A response with
another status is not decoded, whatever envelope its body holds: with a
status other than 200 and 409 the call returns `HTTPStatusCode(code)` and
leaves the caller's slot as it was; with status 409 the call has two
exchanges (the 409 is answered by the one retry, or is the answer to it), and
when the 409 is the answer of the last exchange the call returns the error
"CSRF token invalid 2 times in a row: stopping to avoid infinite loop" and
leaves the caller's slot as it was. -/
theorem rpcCall_tag_mismatch (env : Env α ρ) (c : Client σ) (method : String)
    (arguments : α) (st : State σ ρ) (x : Exchange) (resp : HTTPResponse)
    (hx : x ∈ exchanges st (rpcCall env c method arguments st))
    (he : x.encErr = none) (hr : x.resp = .ok resp) :
    (resp.StatusCode = 200 →
      ∀ (ans : answerPayload) (t : Int),
        (env.Decode (decoderInput c.debug resp.Body) st.result).1 = .ok ans →
        ans.Tag = some t → t ≠ x.tag →
        (rpcCall env c method arguments st).err = some (.errorString
          "http request tag and answer payload tag do not match")) ∧
    (resp.StatusCode ≠ 200 → resp.StatusCode ≠ 409 →
      (rpcCall env c method arguments st).err
        = some (.HTTPStatusCode resp.StatusCode) ∧
      (rpcCall env c method arguments st).st.result = st.result) ∧
    (resp.StatusCode = 409 →
      (exchanges st (rpcCall env c method arguments st)).length = 2 ∧
      ((exchanges st (rpcCall env c method arguments st)).getLast? = some x →
        (rpcCall env c method arguments st).err = some (.errorString
          "CSRF token invalid 2 times in a row: stopping to avoid infinite loop") ∧
        (rpcCall env c method arguments st).st.result = st.result)) := by
  refine ⟨?_, ?_, ?_⟩
  · intro hs ans t hd ht hne
    have hcf : x.conflict = none :=
      conflict_eq_none_of_status x resp hr (by rw [hs]; decide)
    obtain ⟨s, hres, _, _, _, hcall⟩ := rpcCall_settles env c method arguments st x hx hcf
    rw [hcall, (settle_last_err env c _ _ _).1, hr, he, hres]
    simp [hs, hd, ht, hne]
  · intro h2 h9
    have hcf : x.conflict = none := conflict_eq_none_of_status x resp hr h9
    obtain ⟨s, hres, _, _, _, hcall⟩ := rpcCall_settles env c method arguments st x hx hcf
    constructor
    · rw [hcall, (settle_last_err env c _ _ _).1, hr, he]
      simp [h2, h9]
    · rw [hcall, (settle_last_err env c _ _ _).2, hr, he, hres]
      simp [h2]
  · intro h9
    have hcf : x.conflict = some resp := (conflict_eq_some x resp).2 ⟨he, hr, h9⟩
    exact ⟨rpcCall_two_of_conflict env c method arguments st x resp hx hcf,
      fun hl => rpcCall_last_conflict env c method arguments st x resp hl hcf⟩

/-- Witness of the amended C3: a 200 answer with tag 7 and result "success"
to a request with tag 42. -/
theorem rpcCall_tag_mismatch_witness :
    (rpcCall sampleEnv sampleClient "session-get" () (world successWithForeignTag)).err
      = some (.errorString "http request tag and answer payload tag do not match") :=
  (rpcCall_tag_mismatch sampleEnv sampleClient "session-get" ()
    (world successWithForeignTag)
    (exchangeOf sampleEnv sampleClient scripted "session-get" ()
      (world successWithForeignTag))
    ⟨200, [(csrfHeader, "old")], ⟨[2], none⟩⟩
    (by simp [exchanges, rpcCall, request, requestBody, sampleClient, sampleEnv, world,
      successWithForeignTag, answer, scripted, exchangeOf, requestOf, getSessionID,
      sampleDecode])
    rfl rfl).1 rfl ⟨"success", some 7⟩ 7 rfl rfl (by decide)

/-- C4, as the specification states it, fails: a 200 answer whose envelope
has result "no such method" and tag 7, to a request with tag 42, makes the
call return the tag-mismatch error, whose message does not contain "no such
method". The tag is tested before the result. -/
theorem result_error_depends_on_tag :
    ¬ (∀ (env : Env Unit String) (c : Client (List (Except GoError HTTPResponse)))
        (method : String) (st : State (List (Except GoError HTTPResponse)) String)
        (x : Exchange) (resp : HTTPResponse) (ans : answerPayload),
        x ∈ exchanges st (rpcCall env c method () st) →
        x.encErr = none → x.resp = .ok resp → resp.StatusCode = 200 →
        (env.Decode (decoderInput c.debug resp.Body) st.result).1 = .ok ans →
        ans.Result ≠ "success" →
        ∃ e : GoError, (rpcCall env c method () st).err = some e ∧
          ans.Result.data <:+: e.Error.data) := by
  intro h
  obtain ⟨e, h1, h2⟩ := h sampleEnv sampleClient "session-get"
    (world failureWithForeignTag)
    (exchangeOf sampleEnv sampleClient scripted "session-get" ()
      (world failureWithForeignTag))
    ⟨200, [(csrfHeader, "old")], ⟨[4], none⟩⟩ ⟨"no such method", some 7⟩
    (by simp [exchanges, rpcCall, request, requestBody, sampleClient, sampleEnv, world,
      failureWithForeignTag, answer, scripted, exchangeOf, requestOf, getSessionID,
      sampleDecode])
    rfl rfl rfl rfl (by decide)
  have h3 : (rpcCall sampleEnv sampleClient "session-get" ()
      (world failureWithForeignTag)).err = some (.errorString
        "http request tag and answer payload tag do not match") := by decide
  rw [h3] at h1
  cases h1
  revert h2
  decide

/-- C4, amended: when an exchange of a call answers 200, the encoder
reported no error and the body decodes to an envelope that carries the tag of
the request and a result `s` other than "success", the call returns the
error "http request ok but payload does not indicate success: " followed by
`s`, and the caller's slot holds what the decoder put there. -/
theorem rpcCall_result_not_success (env : Env α ρ) (c : Client σ) (method : String)
    (arguments : α) (st : State σ ρ) (x : Exchange) (resp : HTTPResponse)
    (ans : answerPayload)
    (hx : x ∈ exchanges st (rpcCall env c method arguments st))
    (he : x.encErr = none) (hr : x.resp = .ok resp) (hs : resp.StatusCode = 200)
    (hd : (env.Decode (decoderInput c.debug resp.Body) st.result).1 = .ok ans)
    (ht : ans.Tag = some x.tag) (hne : ans.Result ≠ "success") :
    (rpcCall env c method arguments st).err = some (.errorString
      ("http request ok but payload does not indicate success: " ++ ans.Result)) ∧
    (∃ e : GoError, (rpcCall env c method arguments st).err = some e ∧
      ans.Result.data <:+: e.Error.data) ∧
    (rpcCall env c method arguments st).st.result
      = (env.Decode (decoderInput c.debug resp.Body) st.result).2 := by
  have hcf : x.conflict = none :=
    conflict_eq_none_of_status x resp hr (by rw [hs]; decide)
  obtain ⟨s, hres, _, _, _, hcall⟩ := rpcCall_settles env c method arguments st x hx hcf
  have herr : (rpcCall env c method arguments st).err = some (.errorString
      ("http request ok but payload does not indicate success: " ++ ans.Result)) := by
    rw [hcall, (settle_last_err env c _ _ _).1, hr, he, hres]
    simp [hs, hd, ht, hne]
  refine ⟨herr, ⟨_, herr, ?_⟩, ?_⟩
  · simp only [GoError.Error, String.data_append]
    exact List.suffix_append _ _ |>.isInfix
  · rw [hcall, (settle_last_err env c _ _ _).2, hr, he, hres]
    simp [hs]

/-- Witness of the amended C4: a 200 answer with tag 42 and result "no such
method" to a request with tag 42. -/
theorem rpcCall_result_not_success_witness :
    (rpcCall sampleEnv sampleClient "session-get" () (world failureWithOwnTag)).err
      = some (.errorString
        "http request ok but payload does not indicate success: no such method") ∧
    (rpcCall sampleEnv sampleClient "session-get" () (world failureWithOwnTag)).st.result
      = "version x" :=
  have h := rpcCall_result_not_success sampleEnv sampleClient "session-get" ()
    (world failureWithOwnTag)
    (exchangeOf sampleEnv sampleClient scripted "session-get" ()
      (world failureWithOwnTag))
    ⟨200, [(csrfHeader, "old")], ⟨[3], none⟩⟩ ⟨"no such method", some 42⟩
    (by simp [exchanges, rpcCall, request, requestBody, sampleClient, sampleEnv, world,
      failureWithOwnTag, answer, scripted, exchangeOf, requestOf, getSessionID,
      sampleDecode])
    rfl rfl rfl rfl rfl (by decide)
  ⟨h.1, h.2.2⟩

end Claims

end Ptool

namespace Ptool

section Claims

variable {σ α ρ : Type}

/-- C5: `rpcCall` returns no error if and only if the client is initialized,
the encoder reported no error in any exchange of the call, and the last
exchange of the call answered 200 with a body that decodes to an envelope
that carries a tag, equal to the tag drawn for that request, and the result
"success"; the caller's slot then holds what the decoder made of that body,
and the last exchange is the first one or the second one after a 409. -/
theorem rpcCall_succeeds_iff (env : Env α ρ) (c : Client σ) (method : String)
    (arguments : α) (st : State σ ρ) :
    ((rpcCall env c method arguments st).err = none ↔
      c.httpC ≠ none ∧
      (∀ y ∈ exchanges st (rpcCall env c method arguments st), y.encErr = none) ∧
      ∃ (z : Exchange) (resp : HTTPResponse) (ans : answerPayload),
        (exchanges st (rpcCall env c method arguments st)).getLast? = some z ∧
        z.resp = .ok resp ∧ resp.StatusCode = 200 ∧
        (env.Decode (decoderInput c.debug resp.Body) st.result).1 = .ok ans ∧
        ans.Tag = some z.tag ∧ ans.Result = "success") ∧
    ((rpcCall env c method arguments st).err = none →
      ∀ (z : Exchange) (resp : HTTPResponse),
        (exchanges st (rpcCall env c method arguments st)).getLast? = some z →
        z.resp = .ok resp →
        (rpcCall env c method arguments st).st.result
          = (env.Decode (decoderInput c.debug resp.Body) st.result).2) ∧
    ((rpcCall env c method arguments st).err = none →
      ∃ z : Exchange, exchanges st (rpcCall env c method arguments st) = [z] ∨
        ∃ (y : Exchange) (r : HTTPResponse), y.resp = .ok r ∧ r.StatusCode = 409 ∧
          exchanges st (rpcCall env c method arguments st) = [y, z]) := by
  rcases rpcCall_run env c method arguments st with h | h | h
  · obtain ⟨hex, _, herr, _⟩ := h
    refine ⟨⟨fun h0 => absurd h0 herr, ?_⟩, fun h0 => absurd h0 herr,
      fun h0 => absurd h0 herr⟩
    rintro ⟨_, _, z, _, _, hz, _⟩
    rw [hex] at hz
    cases hz
  · obtain ⟨httpC, hc, _, _, hex, hr⟩ := h
    have hcn : c.httpC ≠ none := by rw [hc]; exact Option.some_ne_none _
    have key := settle_last_success env c (fun s => ⟨none, s⟩)
      (exchangeOf env c httpC method arguments st)
      (stateAfter env c httpC method arguments st) st.result
      [exchangeOf env c httpC method arguments st]
      (stateAfter_frame env c httpC method arguments st).1 hcn rfl
      (by
        intro y hy hne
        simp only [List.mem_singleton] at hy
        exact absurd hy hne)
    rw [hex, hr]
    exact ⟨key.1, key.2, fun _ => ⟨_, Or.inl rfl⟩⟩
  · obtain ⟨httpC, resp, hc, _, hcf, hex, hr⟩ := h
    have hcn : c.httpC ≠ none := by rw [hc]; exact Option.some_ne_none _
    have h1 := (conflict_eq_some _ _).1 hcf
    have key := settle_last_success env c (fun s => ⟨none, s⟩)
      (exchangeOf env c httpC method arguments
        (updateSessionID (stateAfter env c httpC method arguments st)
          (resp.Header.Get csrfHeader)))
      (stateAfter env c httpC method arguments
        (updateSessionID (stateAfter env c httpC method arguments st)
          (resp.Header.Get csrfHeader))) st.result
      [exchangeOf env c httpC method arguments st,
        exchangeOf env c httpC method arguments
          (updateSessionID (stateAfter env c httpC method arguments st)
            (resp.Header.Get csrfHeader))]
      (by
        rw [(stateAfter_frame env c httpC method arguments _).1]
        exact (stateAfter_frame env c httpC method arguments st).1)
      hcn rfl
      (by
        intro y hy hne
        simp only [List.mem_cons, List.mem_singleton, List.not_mem_nil, or_false] at hy
        rcases hy with hy | hy
        · rw [hy]; exact h1.1
        · exact absurd hy hne)
    rw [hex, hr]
    exact ⟨key.1, key.2, fun _ => ⟨_, Or.inr ⟨_, resp, h1.2.1, h1.2.2, rfl⟩⟩⟩

/-- Witness of C5: a 200 answer with a success envelope for tag 42; the
call returns no error and the slot holds the decoded arguments. -/
theorem rpcCall_succeeds_iff_witness :
    (rpcCall sampleEnv sampleClient "session-get" () (world plainSuccess)).err = none ∧
    (rpcCall sampleEnv sampleClient "session-get" () (world plainSuccess)).st.result
      = "version x" :=
  have h := rpcCall_succeeds_iff sampleEnv sampleClient "session-get" ()
    (world plainSuccess)
  have h0 : (rpcCall sampleEnv sampleClient "session-get" () (world plainSuccess)).err
      = none :=
    h.1.2 ⟨Option.some_ne_none _,
      by simp [exchanges, rpcCall, request, requestBody, sampleClient, sampleEnv, world,
        plainSuccess, answer, scripted, sampleDecode],
      exchangeOf sampleEnv sampleClient scripted "session-get" () (world plainSuccess),
      ⟨200, [(csrfHeader, "old")], ⟨[1], none⟩⟩, ⟨"success", some 42⟩,
      rfl, rfl, rfl, rfl, rfl, rfl⟩
  ⟨h0, h.2.1 h0 _ ⟨200, [(csrfHeader, "old")], ⟨[1], none⟩⟩ rfl rfl⟩

end Claims

end Ptool

namespace Ptool

section Claims

variable {σ α ρ : Type}

/-- C6: when an exchange of a call answers with a status `code` other than
200 and 409 and the encoder reported no error, the call returns exactly the
error value `HTTPStatusCode(code)`, that exchange is the last of the call (no
retry), and the token stored after the call is the one the request of that
exchange carried, that is the token stored when the attempt started; for the
first attempt it is the token stored before the call. -/
theorem rpcCall_other_status (env : Env α ρ) (c : Client σ) (method : String)
    (arguments : α) (st : State σ ρ) (x : Exchange) (resp : HTTPResponse)
    (hx : x ∈ exchanges st (rpcCall env c method arguments st))
    (he : x.encErr = none) (hr : x.resp = .ok resp)
    (h2 : resp.StatusCode ≠ 200) (h9 : resp.StatusCode ≠ 409) :
    (rpcCall env c method arguments st).err = some (.HTTPStatusCode resp.StatusCode) ∧
    (exchanges st (rpcCall env c method arguments st)).getLast? = some x ∧
    (rpcCall env c method arguments st).st.sessionID = x.req.Header.Get csrfHeader ∧
    ((exchanges st (rpcCall env c method arguments st)).head? = some x →
      (rpcCall env c method arguments st).st.sessionID = st.sessionID) := by
  have hcf : x.conflict = none := conflict_eq_none_of_status x resp hr h9
  obtain ⟨s, _, htok, hfirst, hlast, hcall⟩ :=
    rpcCall_settles env c method arguments st x hx hcf
  have hframe := settle_no_conflict env c (fun s => ⟨none, s⟩) false x s hcf
  refine ⟨?_, hlast, ?_, ?_⟩
  · rw [hcall, (settle_last_err env c _ _ _).1, hr, he]
    simp [h2, h9]
  · rw [hcall, hframe.2.2, htok]
  · intro hh
    rw [hcall, hframe.2.2]
    exact hfirst hh

/-- Witness of C6: a 500 answer gives `HTTPStatusCode(500)` and leaves the
token "old" in place. -/
theorem rpcCall_other_status_witness :
    (rpcCall sampleEnv sampleClient "session-get" () (world serverError)).err
      = some (.HTTPStatusCode 500) ∧
    (rpcCall sampleEnv sampleClient "session-get" () (world serverError)).st.sessionID
      = "old" :=
  have h := rpcCall_other_status sampleEnv sampleClient "session-get" ()
    (world serverError)
    (exchangeOf sampleEnv sampleClient scripted "session-get" () (world serverError))
    ⟨500, [(csrfHeader, "ignored")], ⟨[], none⟩⟩
    (by simp [exchanges, rpcCall, request, requestBody, sampleClient, sampleEnv, world,
      serverError, answer, scripted, exchangeOf, requestOf, getSessionID])
    rfl rfl (by decide) (by decide)
  ⟨h.1, h.2.2.2 rfl⟩

/-- C7, as the specification states it, fails: on a client that is not
initialized, `rpcCall` for the method "session-get" returns an error whose
message does not contain "session-get". -/
theorem error_without_method_name :
    ¬ (∀ (env : Env Unit String) (c : Client (List (Except GoError HTTPResponse)))
        (method : String) (st : State (List (Except GoError HTTPResponse)) String)
        (e : GoError),
        (rpcCall env c method () st).err = some e → method.data <:+: e.Error.data) := by
  intro h
  have h1 := h sampleEnv uninitializedClient "session-get" (world [])
    (.errorString "this controller is not initialized, please use the New() function")
    rfl
  revert h1
  decide

/-- C7, amended: `rpcCall` names the method in the error of the request
preparation only. When the client is initialized and the request cannot be
prepared, the message of the returned error is "can't prepare request for
'<method>' method: <cause>" and so contains the method name. On a client that
is not initialized the error is the same fixed message for every method. On
every other path (client initialized, request prepared) the call has a last
exchange and its error is `lastError` of that exchange, the debug flag and
the caller's slot, a function that does not take the method: the network
error, the encoder error, the repeated 409, the other statuses, the decode
error and the three validation errors are returned with their own text and
no method name added. -/
theorem rpcCall_names_method_when_unprepared (env : Env α ρ) (c : Client σ)
    (method : String) (arguments : α) (st : State σ ρ) :
    (∀ (httpC : σ → HTTPRequest → Outcome × σ) (cause : GoError),
      c.httpC = some httpC → env.NewRequest c.url = some cause →
      ∃ e : GoError, (rpcCall env c method arguments st).err = some e ∧
        e.Error = "can\x27t prepare request for \x27" ++ method ++ "\x27 method: "
          ++ cause.Error ∧
        e.Unwrap = [cause] ∧
        method.data <:+: e.Error.data) ∧
    (c.httpC = none →
      (rpcCall env c method arguments st).err = some (.errorString
        "this controller is not initialized, please use the New() function")) ∧
    (∀ httpC : σ → HTTPRequest → Outcome × σ,
      c.httpC = some httpC → env.NewRequest c.url = none →
      ∃ x : Exchange,
        (exchanges st (rpcCall env c method arguments st)).getLast? = some x ∧
        (rpcCall env c method arguments st).err
          = lastError env c.debug x st.result) := by
  refine ⟨?_, ?_, ?_⟩
  · intro httpC cause hc hn
    refine ⟨.wrapError ("can\x27t prepare request for \x27" ++ method ++ "\x27 method: "
      ++ cause.Error) cause, ?_, rfl, rfl, ?_⟩
    · unfold rpcCall request
      rw [requestBody_unprepared env c method arguments _ true st httpC hc cause hn]
    · show method.data <:+: (("can\x27t prepare request for \x27" ++ method
        ++ "\x27 method: ") ++ cause.Error).data
      simp only [String.data_append]
      exact ⟨_, _, (List.append_assoc _ _ _).symm⟩
  · intro hc
    unfold rpcCall request
    rw [requestBody_uninitialized env c method arguments _ true st hc]
  · intro httpC hc hn
    exact rpcCall_lastError env c method arguments st httpC hc hn

/-- Witness of the amended C7: an endpoint URL without scheme. -/
theorem rpcCall_names_method_when_unprepared_witness :
    ∃ e : GoError,
      (rpcCall badURLEnv sampleClient "session-get" () (world [])).err = some e ∧
      e.Error = "can\x27t prepare request for \x27session-get\x27 method: "
        ++ "missing protocol scheme" ∧
      "session-get".data <:+: e.Error.data :=
  have ⟨e, h1, h2, _, h4⟩ :=
    (rpcCall_names_method_when_unprepared badURLEnv sampleClient "session-get" ()
      (world [])).1 scripted (.library "missing protocol scheme") rfl rfl
  ⟨e, h1, h2, h4⟩

end Claims

end Ptool

namespace Ptool

section Claims

variable {σ α ρ : Type}

/-- C8: when marshalling the payload of an exchange of a call fails with
error `e`, the call returns a non-nil error that wraps `e`, whatever the HTTP
exchange produced (a network error, a 200 answer with a valid envelope, a
409 answer, any other answer): that exchange is the last of the call (no
retry), the caller's slot is left as it was before the call (nothing is
decoded into it), and the stored token is still the one the request of that
exchange carried (a 409 answer does not update it). -/
theorem rpcCall_encoding_failure (env : Env α ρ) (c : Client σ) (method : String)
    (arguments : α) (st : State σ ρ) (x : Exchange) (e : GoError)
    (hx : x ∈ exchanges st (rpcCall env c method arguments st))
    (hen : env.Encode { Method := method, Arguments := arguments, Tag := x.tag }
      = .error e) :
    (∃ err : GoError, (rpcCall env c method arguments st).err = some err ∧
      e ∈ err.Unwrap) ∧
    (exchanges st (rpcCall env c method arguments st)).getLast? = some x ∧
    (rpcCall env c method arguments st).st.result = st.result ∧
    (rpcCall env c method arguments st).st.sessionID = x.req.Header.Get csrfHeader := by
  have he : x.encErr = some e := encErr_of_mem env c method arguments st x e hx hen
  have hcf : x.conflict = none := conflict_eq_none_of_encErr x e he
  obtain ⟨s, hres, htok, _, hlast, hcall⟩ :=
    rpcCall_settles env c method arguments st x hx hcf
  have hframe := settle_no_conflict env c (fun s => ⟨none, s⟩) false x s hcf
  refine ⟨?_, hlast, ?_, ?_⟩
  · rw [hcall, (settle_last_err env c _ _ _).1, he]
    cases hr : x.resp with
    | error err => exact ⟨_, rfl, by simp [GoError.Unwrap]⟩
    | ok resp => exact ⟨_, rfl, by simp [GoError.Unwrap]⟩
  · rw [hcall, (settle_last_err env c _ _ _).2, he, ← hres]
    cases hr : x.resp <;> rfl
  · rw [hcall, hframe.2.2, htok]

/-- Witness of C8: the arguments cannot be marshalled and the peer answers
409 with token "abc123"; the call fails after one exchange and the token is
still "old". -/
theorem rpcCall_encoding_failure_witness :
    (rpcCall failingEncodeEnv sampleClient "session-get" () (world oneConflict)).err
      = some (.wrapError ("request payload JSON marshalling failed: "
          ++ "json: unsupported type: chan int")
        (.library "json: unsupported type: chan int")) ∧
    (exchanges (world oneConflict)
      (rpcCall failingEncodeEnv sampleClient "session-get" () (world oneConflict))).length
      = 1 ∧
    (rpcCall failingEncodeEnv sampleClient "session-get" () (world oneConflict)).st.result
      = "" ∧
    (rpcCall failingEncodeEnv sampleClient "session-get" ()
      (world oneConflict)).st.sessionID = "old" :=
  have h := rpcCall_encoding_failure failingEncodeEnv sampleClient "session-get" ()
    (world oneConflict)
    (exchangeOf failingEncodeEnv sampleClient scripted "session-get" ()
      (world oneConflict))
    (.library "json: unsupported type: chan int")
    (by simp [exchanges, rpcCall, request, requestBody, sampleClient, failingEncodeEnv,
      sampleEnv, world, oneConflict, answer, scripted, exchangeOf, requestOf,
      getSessionID])
    rfl
  ⟨by decide, by decide, h.2.2.1, h.2.2.2⟩

/-- C9: when the encoder reported no error in any exchange of a call, the
token stored after the call is the `X-Transmission-Session-Id` value (`""`
when the header is absent) of the last response with status 409 received
during the call, and it is the token stored before the call when no response
of the call had status 409. -/
theorem rpcCall_session_token (env : Env α ρ) (c : Client σ) (method : String)
    (arguments : α) (st : State σ ρ)
    (hall : ∀ y ∈ exchanges st (rpcCall env c method arguments st), y.encErr = none) :
    (rpcCall env c method arguments st).st.sessionID =
      (match last409 (exchanges st (rpcCall env c method arguments st)) with
        | some resp => resp.Header.Get csrfHeader
        | none => st.sessionID) := by
  have hsame : ∀ y : Exchange, y.encErr = none → y.status409 = y.conflict := by
    intro y hy
    unfold Exchange.status409 Exchange.conflict
    cases hr : y.resp <;> simp [hy]
  rcases rpcCall_run env c method arguments st with h | h | h
  · obtain ⟨hex, hst, _, _⟩ := h
    rw [hex, hst]
    rfl
  · obtain ⟨httpC, _, _, hcf, hex, hr⟩ := h
    rw [hex] at hall
    have h1 := hsame _ (hall _ (List.mem_singleton.2 rfl))
    rw [hex, hr, (settle_last_frame env c _ _ _).2, hcf]
    simp only [last409, List.filterMap_cons, List.filterMap_nil, h1, hcf]
    exact (stateAfter_frame env c httpC method arguments st).2.1
  · obtain ⟨httpC, resp, _, _, hcf, hex, hr⟩ := h
    rw [hex] at hall
    have h1 := hsame _ (hall _ (List.mem_cons_self _ _))
    have h2 := hsame _ (hall _ (List.mem_cons_of_mem _ (List.mem_singleton.2 rfl)))
    rw [hex, hr, (settle_last_frame env c _ _ _).2]
    simp only [last409, List.filterMap_cons, List.filterMap_nil, h1, h2, hcf]
    cases hc2 : (exchangeOf env c httpC method arguments
        (updateSessionID (stateAfter env c httpC method arguments st)
          (resp.Header.Get csrfHeader))).conflict with
    | none =>
      simp only [List.getLast?_singleton]
      rw [(stateAfter_frame env c httpC method arguments _).2.1]
      rfl
    | some r2 => simp

/-- Witness of C9: two 409 answers with tokens "abc123" and "def456"; the
token after the call is "def456". -/
theorem rpcCall_session_token_witness :
    (rpcCall sampleEnv sampleClient "session-get" () (world twoConflicts)).st.sessionID
      = "def456" :=
  rpcCall_session_token sampleEnv sampleClient "session-get" () (world twoConflicts)
    (by simp [exchanges, rpcCall, request, requestBody, requestLast, sampleClient,
      sampleEnv, world, twoConflicts, answer, scripted, updateSessionID])

end Claims

end Ptool

/-! ## Claims about `ExtractTime` -/

namespace Ptool

section ExtractTimeClaims

variable {L : Type}

/-- When `ParseTime` returns an error on the string `ExtractTime` hands to
it (the `time` group of the match, or `str` itself when nothing matches), the
offset returned by `ExtractTime` is 0. -/
theorem ExtractTime_offset_zero_of_error (ParseTime : String → L → Int × Option GoError)
    (str : String) (location : L)
    (h : (ParseTime
      (match timeRegexpFindStringSubmatch str.data with
        | some m => String.mk m.2
        | none => str) location).2 ≠ none) :
    (ExtractTime ParseTime str location).2 = 0 := by
  unfold ExtractTime
  cases hm : timeRegexpFindStringSubmatch str.data with
  | none =>
    rw [hm] at h
    simp [h]
  | some m =>
    obtain ⟨m0, time⟩ := m
    rw [hm] at h
    simp [h]

/-- C10 at the input "a\n2024-01-02 03:04:05": whenever `ParseTime` accepts
"2024-01-02 03:04:05", `ExtractTime` finds that date-time and returns the
offset 19, the length of the match that starts after the line feed. The
date-time ends at byte 21 of the input: `str[:21]` ends with it and
`str[:19]` does not, so the offset is not the offset of the end of the found
time string in the original string, which the comment of `ExtractTime` says
it is. -/
theorem ExtractTime_offset_after_line_feed
    (ParseTime : String → L → Int × Option GoError) (location : L) (t : Int)
    (h : ParseTime "2024-01-02 03:04:05" location = (t, none)) :
    timeRegexpFindStringSubmatch "a\n2024-01-02 03:04:05".data
      = some ("2024-01-02 03:04:05".data, "2024-01-02 03:04:05".data) ∧
    ExtractTime ParseTime "a\n2024-01-02 03:04:05" location = (t, 19) ∧
    ¬ ("2024-01-02 03:04:05".toUTF8.data.toList
        <:+ slicePrefix "a\n2024-01-02 03:04:05" 19) ∧
    "2024-01-02 03:04:05".toUTF8.data.toList
      <:+ slicePrefix "a\n2024-01-02 03:04:05" 21 := by
  have hm : timeRegexpFindStringSubmatch "a\n2024-01-02 03:04:05".data
      = some ("2024-01-02 03:04:05".data, "2024-01-02 03:04:05".data) := by decide
  refine ⟨hm, ?_, by decide, by decide⟩
  unfold ExtractTime
  rw [hm]
  have hs : String.mk "2024-01-02 03:04:05".data = "2024-01-02 03:04:05" := rfl
  simp only [hs, h]
  have hl : ("2024-01-02 03:04:05".utf8ByteSize : Int) = 19 := by decide
  simp [hl]

/-- Witness of `ExtractTime_offset_after_line_feed`: a `ParseTime` that
accepts "2024-01-02 03:04:05". -/
theorem ExtractTime_offset_after_line_feed_witness :
    ExtractTime sampleParseTime "a\n2024-01-02 03:04:05" () = (1704164645, 19) ∧
    ¬ ("2024-01-02 03:04:05".toUTF8.data.toList
        <:+ slicePrefix "a\n2024-01-02 03:04:05" 19) :=
  have h := ExtractTime_offset_after_line_feed sampleParseTime () 1704164645 rfl
  ⟨h.2.1, h.2.2.1⟩

end ExtractTimeClaims

end Ptool

/-! ## Claims about the correlation tag and the debug mode -/

namespace Ptool

section Claims

variable {σ α ρ : Type}

/-- C13: in a call that is retried, the tag of the first attempt is the
value the random source yields when the call starts and the tag of the second
attempt is the next value it yields; a 200 answer to the second attempt is
validated against the tag of the second attempt only: an envelope with that
tag and the result "success" is accepted, an envelope with any other tag is
refused with the tag-mismatch error, in particular one that echoes the tag of
the first attempt when the two tags differ. -/
theorem rpcCall_tag_per_attempt (env : Env α ρ) (c : Client σ) (method : String)
    (arguments : α) (st : State σ ρ) (x1 x2 : Exchange)
    (hxs : exchanges st (rpcCall env c method arguments st) = [x1, x2]) :
    x1.tag = c.rnd st.draws ∧ x2.tag = c.rnd (st.draws + 1) ∧
    ∀ (r2 : HTTPResponse) (ans : answerPayload) (t : Int),
      x2.encErr = none → x2.resp = .ok r2 → r2.StatusCode = 200 →
      (env.Decode (decoderInput c.debug r2.Body) st.result).1 = .ok ans →
      ans.Tag = some t →
      (t = x2.tag → ans.Result = "success" →
        (rpcCall env c method arguments st).err = none) ∧
      (t ≠ x2.tag →
        (rpcCall env c method arguments st).err = some (.errorString
          "http request tag and answer payload tag do not match")) ∧
      (t = x1.tag → x1.tag ≠ x2.tag →
        (rpcCall env c method arguments st).err = some (.errorString
          "http request tag and answer payload tag do not match")) := by
  rcases rpcCall_run env c method arguments st with h | h | h
  · rw [h.1] at hxs
    cases hxs
  · obtain ⟨httpC, _, _, _, hex, _⟩ := h
    rw [hex] at hxs
    simp at hxs
  · obtain ⟨httpC, resp, _, _, _, hex, hr⟩ := h
    rw [hex] at hxs
    simp only [List.cons.injEq, and_true] at hxs
    obtain ⟨h1, h2⟩ := hxs
    have hres0 : (stateAfter env c httpC method arguments
        (updateSessionID (stateAfter env c httpC method arguments st)
          (resp.Header.Get csrfHeader))).result = st.result := by
      rw [(stateAfter_frame env c httpC method arguments _).1]
      exact (stateAfter_frame env c httpC method arguments st).1
    have hmis : ∀ (r2 : HTTPResponse) (ans : answerPayload) (t : Int),
        x2.encErr = none → x2.resp = .ok r2 → r2.StatusCode = 200 →
        (env.Decode (decoderInput c.debug r2.Body) st.result).1 = .ok ans →
        ans.Tag = some t → t ≠ x2.tag →
        (rpcCall env c method arguments st).err = some (.errorString
          "http request tag and answer payload tag do not match") := by
      intro r2 ans t he hr2 hs hd ht hne
      rw [hr, (settle_last_err env c _ _ _).1, h2, hr2, he, hres0]
      simp [hs, hd, ht, hne]
    refine ⟨by rw [← h1]; rfl, by rw [← h2]; rfl, ?_⟩
    intro r2 ans t he hr2 hs hd ht
    refine ⟨?_, hmis r2 ans t he hr2 hs hd ht, ?_⟩
    · intro htt hsucc
      rw [hr, (settle_last_err env c _ _ _).1, h2, hr2, he, hres0]
      simp [hs, hd, ht, htt, hsucc]
    · intro htt hne
      exact hmis r2 ans t he hr2 hs hd ht (by rw [htt]; exact hne)

/-- Witness of C13: the random source yields 42, then 43; the peer answers
409, then 200 with a success envelope that echoes the tag 42; the call is
refused with the tag-mismatch error. -/
theorem rpcCall_tag_per_attempt_witness :
    (exchanges (world conflictThenSuccess)
      (rpcCall sampleEnv countingClient "session-get" ()
        (world conflictThenSuccess))).map (fun x => x.tag) = [42, 43] ∧
    (rpcCall sampleEnv countingClient "session-get" () (world conflictThenSuccess)).err
      = some (.errorString "http request tag and answer payload tag do not match") :=
  have h := rpcCall_tag_per_attempt sampleEnv countingClient "session-get" ()
    (world conflictThenSuccess)
    (exchangeOf sampleEnv countingClient scripted "session-get" ()
      (world conflictThenSuccess))
    (exchangeOf sampleEnv countingClient scripted "session-get" ()
      (updateSessionID (stateAfter sampleEnv countingClient scripted "session-get" ()
        (world conflictThenSuccess)) "abc123"))
    rfl
  ⟨by decide,
   (h.2.2 ⟨200, [(csrfHeader, "abc123")], ⟨[1], none⟩⟩ ⟨"success", some 42⟩ 42
      rfl rfl rfl rfl rfl).2.2 rfl (by decide)⟩

end Claims

end Ptool

namespace Ptool

section Claims

variable {σ α ρ : Type}

/-- C14: for every client, world, random source and peer, and for both
values of `retry`, when the body of every response received during the call
can be read completely, `request` returns the same error, leaves the same
content in the caller's slot and stores the same token with `debug = true`
as with `debug = false`; the exchanges are the same too. -/
theorem request_debug_irrelevant (env : Env α ρ) (c : Client σ) (method : String)
    (arguments : α) (retry : Bool) (st : State σ ρ)
    (hbody : ∀ x ∈ exchanges st
        (request env { c with debug := false } method arguments retry st),
      ∀ r : HTTPResponse, x.resp = .ok r → r.Body.err = none) :
    (request env { c with debug := true } method arguments retry st).err
      = (request env { c with debug := false } method arguments retry st).err ∧
    (request env { c with debug := true } method arguments retry st).st.result
      = (request env { c with debug := false } method arguments retry st).st.result ∧
    (request env { c with debug := true } method arguments retry st).st.sessionID
      = (request env { c with debug := false } method arguments retry st).st.sessionID ∧
    exchanges st (request env { c with debug := true } method arguments retry st)
      = exchanges st (request env { c with debug := false } method arguments retry st) := by
  have hcases : c.httpC = none ∨ ∃ httpC, c.httpC = some httpC := by
    cases c.httpC with
    | none => exact Or.inl rfl
    | some httpC => exact Or.inr ⟨httpC, rfl⟩
  rcases hcases with hc | ⟨httpC, hc⟩
  · unfold request
    rw [requestBody_uninitialized env { c with debug := true } method arguments _ retry st hc,
      requestBody_uninitialized env { c with debug := false } method arguments _ retry st hc]
    exact ⟨rfl, rfl, rfl, rfl⟩
  · cases hn : env.NewRequest c.url with
    | some err =>
      unfold request
      rw [requestBody_unprepared env { c with debug := true } method arguments _ retry st
          httpC hc err hn,
        requestBody_unprepared env { c with debug := false } method arguments _ retry st
          httpC hc err hn]
      exact ⟨rfl, rfl, rfl, rfl⟩
    | none =>
      cases retry with
      | false =>
        have hT := request_last env { c with debug := true } method arguments st httpC hc hn
        have hF := request_last env { c with debug := false } method arguments st httpC hc hn
        rw [hF.1] at hbody
        have hd := settle_last_debug env c (fun s => ⟨none, s⟩) (fun s => ⟨none, s⟩)
          (exchangeOf env { c with debug := false } httpC method arguments st)
          (stateAfter env { c with debug := false } httpC method arguments st)
          (hbody _ (List.mem_singleton.2 rfl))
        rw [hT.1, hF.1, hT.2, hF.2]
        exact ⟨hd.1, hd.2.1, hd.2.2, rfl⟩
      | true =>
        cases hx : (exchangeOf env { c with debug := false } httpC method arguments
            st).conflict with
        | none =>
          have hT := rpcCall_single env { c with debug := true } method arguments st
            httpC hc hn hx
          have hF := rpcCall_single env { c with debug := false } method arguments st
            httpC hc hn hx
          change (rpcCall env { c with debug := true } method arguments st).err
              = (rpcCall env { c with debug := false } method arguments st).err ∧
            (rpcCall env { c with debug := true } method arguments st).st.result
              = (rpcCall env { c with debug := false } method arguments st).st.result ∧
            (rpcCall env { c with debug := true } method arguments st).st.sessionID
              = (rpcCall env { c with debug := false } method arguments st).st.sessionID ∧
            exchanges st (rpcCall env { c with debug := true } method arguments st)
              = exchanges st (rpcCall env { c with debug := false } method arguments st)
          change ∀ x ∈ exchanges st
              (rpcCall env { c with debug := false } method arguments st),
            ∀ r : HTTPResponse, x.resp = .ok r → r.Body.err = none at hbody
          rw [hF.1] at hbody
          have hd := settle_last_debug env c (fun s => ⟨none, s⟩) (fun s => ⟨none, s⟩)
            (exchangeOf env { c with debug := false } httpC method arguments st)
            (stateAfter env { c with debug := false } httpC method arguments st)
            (hbody _ (List.mem_singleton.2 rfl))
          rw [hT.1, hF.1, hT.2, hF.2]
          exact ⟨hd.1, hd.2.1, hd.2.2, rfl⟩
        | some resp =>
          have hT := rpcCall_retry env { c with debug := true } method arguments st
            httpC hc hn resp hx
          have hF := rpcCall_retry env { c with debug := false } method arguments st
            httpC hc hn resp hx
          change (rpcCall env { c with debug := true } method arguments st).err
              = (rpcCall env { c with debug := false } method arguments st).err ∧
            (rpcCall env { c with debug := true } method arguments st).st.result
              = (rpcCall env { c with debug := false } method arguments st).st.result ∧
            (rpcCall env { c with debug := true } method arguments st).st.sessionID
              = (rpcCall env { c with debug := false } method arguments st).st.sessionID ∧
            exchanges st (rpcCall env { c with debug := true } method arguments st)
              = exchanges st (rpcCall env { c with debug := false } method arguments st)
          change ∀ x ∈ exchanges st
              (rpcCall env { c with debug := false } method arguments st),
            ∀ r : HTTPResponse, x.resp = .ok r → r.Body.err = none at hbody
          rw [hF.1] at hbody
          have hd := settle_last_debug env c (fun s => ⟨none, s⟩) (fun s => ⟨none, s⟩)
            (exchangeOf env { c with debug := false } httpC method arguments
              (updateSessionID (stateAfter env { c with debug := false } httpC method
                arguments st) (resp.Header.Get csrfHeader)))
            (stateAfter env { c with debug := false } httpC method arguments
              (updateSessionID (stateAfter env { c with debug := false } httpC method
                arguments st) (resp.Header.Get csrfHeader)))
            (hbody _ (List.mem_cons_of_mem _ (List.mem_singleton.2 rfl)))
          rw [hT.1, hF.1, hT.2, hF.2]
          exact ⟨hd.1, hd.2.1, hd.2.2, rfl⟩

/-- Witness of C14: the token is rotated once and the second answer is a
success envelope; with and without the debug flag the call returns no error,
fills the slot and stores "abc123". -/
theorem request_debug_irrelevant_witness :
    (request sampleEnv debugClient "session-get" () true (world conflictThenSuccess)).err
      = none ∧
    (request sampleEnv debugClient "session-get" () true
      (world conflictThenSuccess)).st.result = "version x" ∧
    (request sampleEnv debugClient "session-get" () true
      (world conflictThenSuccess)).st.sessionID = "abc123" :=
  have h := request_debug_irrelevant sampleEnv sampleClient "session-get" () true
    (world conflictThenSuccess)
    (by
      intro x hx r hr
      have hx2 : x = exchangeOf sampleEnv sampleClient scripted "session-get" ()
            (world conflictThenSuccess) ∨
          x = exchangeOf sampleEnv sampleClient scripted "session-get" ()
            (updateSessionID (stateAfter sampleEnv sampleClient scripted "session-get" ()
              (world conflictThenSuccess)) "abc123") := by
        have hl : exchanges (world conflictThenSuccess)
            (request sampleEnv { sampleClient with debug := false } "session-get" () true
              (world conflictThenSuccess))
            = [exchangeOf sampleEnv sampleClient scripted "session-get" ()
                (world conflictThenSuccess),
               exchangeOf sampleEnv sampleClient scripted "session-get" ()
                (updateSessionID (stateAfter sampleEnv sampleClient scripted
                  "session-get" () (world conflictThenSuccess)) "abc123")] := rfl
        rw [hl] at hx
        simpa using hx
      rcases hx2 with h1 | h1
      · subst h1
        cases hr
        rfl
      · subst h1
        cases hr
        rfl)
  ⟨h.1.trans (by decide), h.2.1.trans rfl, h.2.2.1.trans rfl⟩

end Claims

end Ptool

/-! ## Claims about `FormatDuration` -/

namespace Ptool

/-- C15: for every `seconds ≥ 0`, `FormatDuration(seconds)` is the
concatenation, in the order days, hours, minutes, seconds, of the first two
non-zero components among `seconds/86400`, `(seconds%86400)/3600`,
`(seconds%3600)/60` and `seconds%60`, each followed by its unit letter; and
for every `seconds ≤ 0` it is the empty string. -/
theorem FormatDuration_first_two_units (seconds : Int) :
    (0 ≤ seconds → FormatDuration seconds = firstTwoUnits seconds) ∧
    (seconds ≤ 0 → FormatDuration seconds = "") := by
  constructor
  · intro h0
    have r1 : 0 ≤ seconds % 86400 := Int.emod_nonneg _ (by decide)
    have r2 : 0 ≤ seconds % 86400 % 3600 := Int.emod_nonneg _ (by decide)
    have q2 : seconds % 86400 % 3600 = seconds % 3600 :=
      Int.emod_emod_of_dvd seconds (by decide)
    have q3 : seconds % 3600 % 60 = seconds % 60 :=
      Int.emod_emod_of_dvd seconds (by decide)
    have e1 : seconds.tdiv 86400 = seconds / 86400 := Int.tdiv_eq_ediv h0 (by decide)
    have e2 : seconds.tmod 86400 = seconds % 86400 := Int.tmod_eq_emod h0 (by decide)
    have e3 : (seconds % 86400).tdiv 3600 = seconds % 86400 / 3600 :=
      Int.tdiv_eq_ediv r1 (by decide)
    have e4 : (seconds % 86400).tmod 3600 = seconds % 3600 := by
      rw [Int.tmod_eq_emod r1 (by decide), q2]
    have r3 : 0 ≤ seconds % 3600 := Int.emod_nonneg _ (by decide)
    have e5 : (seconds % 3600).tdiv 60 = seconds % 3600 / 60 :=
      Int.tdiv_eq_ediv r3 (by decide)
    have e6 : (seconds % 3600).tmod 60 = seconds % 60 := by
      rw [Int.tmod_eq_emod r3 (by decide), q3]
    unfold FormatDuration firstTwoUnits
    simp only [e1, e2, e3, e4, e5, e6]
    rw [FormatDuration.loop_eq,
      render_filter _ _ _ _ (Int.ediv_nonneg h0 (by decide))
        (Int.ediv_nonneg r1 (by decide)) (Int.ediv_nonneg r3 (by decide))
        (Int.emod_nonneg _ (by decide)),
      List.map_take]
  · intro h0
    have a1 := tdiv_tmod_nonpos seconds 86400 h0 (by decide)
    have a2 := tdiv_tmod_nonpos (seconds.tmod 86400) 3600 a1.2 (by decide)
    have a3 := tdiv_tmod_nonpos ((seconds.tmod 86400).tmod 3600) 60 a2.2 (by decide)
    unfold FormatDuration
    simp only [gt_iff_lt, not_lt.2 a1.1, not_lt.2 a2.1, not_lt.2 a3.1, not_lt.2 a3.2,
      if_false]
    decide

/-- Witness of C15: 86401 seconds are one day and one second, and -5
seconds give the empty string. -/
theorem FormatDuration_first_two_units_witness :
    FormatDuration 86401 = firstTwoUnits 86401 ∧ firstTwoUnits 86401 = "1d1s" ∧
    FormatDuration (-5) = "" :=
  ⟨(FormatDuration_first_two_units 86401).1 (by decide), by decide,
   (FormatDuration_first_two_units (-5)).2 (by decide)⟩

end Ptool

/-! ## Claims about `ParseTimeWithNow` -/

namespace Ptool

section ParseTimeClaims

variable {L : Type}

/-- C11: for every date-time, location and `now`, `ParseTimeWithNow` returns
on the compact layout "yyyy-MM-ddHH:mm:ss" what it returns on the spaced
layout "yyyy-MM-dd HH:mm:ss", also when either string is surrounded by white
space; and when `time.ParseInLocation` accepts the spaced layout in the given
location (`time.Local` for a nil location) with Unix time `t`, as it does for
a valid calendar date-time, both calls return `(t, nil)`. -/
theorem ParseTimeWithNow_layouts_agree (env : TimeEnv L) (dt : DateTime)
    (location : Option L) (now : Int) (pre post pre2 post2 : List Char)
    (hpre : ∀ ch ∈ pre, isUnicodeSpace ch = true)
    (hpost : ∀ ch ∈ post, isUnicodeSpace ch = true)
    (hpre2 : ∀ ch ∈ pre2, isUnicodeSpace ch = true)
    (hpost2 : ∀ ch ∈ post2, isUnicodeSpace ch = true) :
    ParseTimeWithNow env (String.mk (pre ++ dt.compact.data ++ post)) location now
      = ParseTimeWithNow env (String.mk (pre2 ++ dt.spaced.data ++ post2)) location now ∧
    ∀ t : Int,
      env.ParseInLocation "2006-01-02 15:04:05" dt.spaced
        (match location with
          | none => env.Local
          | some l => l) = (t, none) →
      ParseTimeWithNow env (String.mk (pre ++ dt.compact.data ++ post)) location now
        = (t, none) ∧
      ParseTimeWithNow env (String.mk (pre2 ++ dt.spaced.data ++ post2)) location now
        = (t, none) := by
  rw [ParseTimeWithNow_compact env dt pre post hpre hpost,
    ParseTimeWithNow_spaced env dt pre2 post2 hpre2 hpost2]
  refine ⟨rfl, ?_⟩
  intro t ht
  have h : parseLayoutOrDuration env dt.spaced location now = (t, none) := by
    unfold parseLayoutOrDuration
    simp only [ht, if_true]
  exact ⟨h, h⟩

/-- Witness of C11: "2024-01-0203:04:05" between spaces and
"2024-01-02 03:04:05" both give the Unix time 1704164645. -/
theorem ParseTimeWithNow_layouts_agree_witness :
    ParseTimeWithNow sampleTimeEnv "  2024-01-0203:04:05 \n" none 0
      = (1704164645, none) ∧
    ParseTimeWithNow sampleTimeEnv "2024-01-02 03:04:05" none 0 = (1704164645, none) :=
  (ParseTimeWithNow_layouts_agree sampleTimeEnv ⟨2024, 1, 2, 3, 4, 5⟩ none 0
    [' ', ' '] [' ', '\n'] [] [] (by decide) (by decide) (by decide) (by decide)).2
    1704164645 rfl

/-- C12: when the string, with surrounding white space trimmed, is an
optional sign followed by decimal digits whose value `n` is in the range of
`int`, `ParseTimeWithNow` returns `(n, nil)` for every location and every
`now`; and on a string that is empty or consists of white space it returns
the error "empty str". -/
theorem ParseTimeWithNow_integer (env : TimeEnv L) (str : String) (location : Option L)
    (now : Int) :
    (∀ (sign digits : List Char) (n : Int),
      (TrimSpace str).data = sign ++ digits →
      (sign = [] ∨ sign = ['+'] ∨ sign = ['-']) →
      digits ≠ [] → (∀ ch ∈ digits, isDigit ch = true) →
      n = (if sign = ['-'] then -(decimalValue digits : Int)
        else (decimalValue digits : Int)) →
      -(2 : Int) ^ 63 ≤ n → n ≤ (2 : Int) ^ 63 - 1 →
      ParseTimeWithNow env str location now = (n, none)) ∧
    ((∀ ch ∈ str.data, isUnicodeSpace ch = true) →
      ParseTimeWithNow env str location now = (0, some (.errorString "empty str"))) := by
  constructor
  · intro sign digits n hs hsign hne hdig hn hlo hhi
    have htrim : TrimSpace str = String.mk (sign ++ digits) := String.ext hs
    have hnonempty : TrimSpace str ≠ "" := by
      intro h
      rw [h] at hs
      exact hne (List.append_eq_nil.1 hs.symm).2
    have hatoi : Atoi (TrimSpace str) = (n, none) := by
      rw [htrim]
      rcases hsign with h | h | h
      · subst h
        have hn2 : n = (decimalValue digits : Int) := by simpa using hn
        rw [hn2] at hhi ⊢
        exact Atoi_unsigned digits hne hdig (by norm_num at hhi; omega)
      · subst h
        have hn2 : n = (decimalValue digits : Int) := by simpa using hn
        rw [hn2] at hhi ⊢
        exact Atoi_plus digits hne hdig (by norm_num at hhi; omega)
      · subst h
        have hn2 : n = -(decimalValue digits : Int) := by simpa using hn
        rw [hn2] at hlo ⊢
        exact Atoi_minus digits hne hdig (by norm_num at hlo; omega)
    unfold ParseTimeWithNow
    simp only [hnonempty, if_false, hatoi, if_true]
  · intro h
    unfold ParseTimeWithNow
    simp only [TrimSpace_blank str h, if_true]

/-- Witness of C12: " 1700000000 " is the Unix time 1700000000, and a
string of three spaces is refused. -/
theorem ParseTimeWithNow_integer_witness :
    ParseTimeWithNow sampleTimeEnv " 1700000000 " none 0 = (1700000000, none) ∧
    ParseTimeWithNow sampleTimeEnv "   " none 0
      = (0, some (.errorString "empty str")) :=
  ⟨(ParseTimeWithNow_integer sampleTimeEnv " 1700000000 " none 0).1 []
      "1700000000".data 1700000000 (by decide) (Or.inl rfl) (by decide) (by decide)
      (by decide) (by decide) (by decide),
   (ParseTimeWithNow_integer sampleTimeEnv "   " none 0).2 (by decide)⟩

end ParseTimeClaims

end Ptool

/-! ## `ExtractTime` with the `ParseTime` of datetime.go -/

namespace Ptool

section ExtractParse

variable {L : Type}

/-- With the `ParseTime` of datetime.go for its parameter, `ExtractTime`
returns the offset 19 on "a\n2024-01-02 03:04:05", whose date-time ends at
byte 21, whenever `time.ParseInLocation` accepts "2024-01-02 03:04:05". -/
theorem ExtractTime_ParseTime_after_line_feed (env : TimeEnv L) (clock t : Int)
    (location : Option L)
    (h : env.ParseInLocation "2006-01-02 15:04:05" "2024-01-02 03:04:05"
      (match location with
        | none => env.Local
        | some l => l) = (t, none)) :
    ExtractTime (ParseTime env clock) "a\n2024-01-02 03:04:05" location = (t, 19) := by
  have hp : ParseTime env clock "2024-01-02 03:04:05" location = (t, none) := by
    have h1 := ParseTimeWithNow_spaced env ⟨2024, 1, 2, 3, 4, 5⟩ [] []
      (by simp) (by simp) location clock
    have h2 : parseLayoutOrDuration env (DateTime.spaced ⟨2024, 1, 2, 3, 4, 5⟩)
        location clock = (t, none) := by
      unfold parseLayoutOrDuration
      have hs : DateTime.spaced ⟨2024, 1, 2, 3, 4, 5⟩ = "2024-01-02 03:04:05" := by decide
      simp only [hs, h, if_true]
    rw [h2] at h1
    exact h1
  have hm : timeRegexpFindStringSubmatch "a\n2024-01-02 03:04:05".data
      = some ("2024-01-02 03:04:05".data, "2024-01-02 03:04:05".data) := by decide
  unfold ExtractTime
  rw [hm]
  have hs : String.mk "2024-01-02 03:04:05".data = "2024-01-02 03:04:05" := rfl
  simp only [hs, hp]
  have hl : ("2024-01-02 03:04:05".utf8ByteSize : Int) = 19 := by decide
  simp [hl]

end ExtractParse

end Ptool
